import Mathlib

/-!
Verification development for the Beeswax QA automation repository.

The Python sources are shallowly embedded: pandas cell values become an
explicit `CellVal` type, strings are Lean strings, floating point money
amounts are modelled as exact rationals, and every fallible Python path
returns an `Option`/explicit error value.  Each embedded definition keeps
the name of the Python function it translates.
-/

namespace BeeswaxQA

/-! ## Python string primitives -/

/-- The whitespace characters removed by Python `str.strip()`. -/
def isPySpace (c : Char) : Bool :=
  c = ' ' || c = '\t' || c = '\n' || c = '\r' || c = '\x0b' || c = '\x0c'

/-- Python `str.strip()` on a character list. -/
def pyStripList (cs : List Char) : List Char :=
  ((cs.dropWhile isPySpace).reverse.dropWhile isPySpace).reverse

/-- Python `str.strip()`. -/
def pyStrip (s : String) : String :=
  String.mk (pyStripList s.data)

/-- Python `str.lower()` (ASCII case folding, which is all the sources use). -/
def pyLower (s : String) : String :=
  String.mk (s.data.map Char.toLower)

/-- Python `str.upper()` (ASCII case folding). -/
def pyUpper (s : String) : String :=
  String.mk (s.data.map Char.toUpper)

/-- Python `pat in hay` substring membership. -/
def strContains (hay pat : String) : Bool :=
  hay.data.tails.any (fun suf => pat.data.isPrefixOf suf)

/-- Python `hay.startswith(pat)`. -/
def strStarts (hay pat : String) : Bool :=
  pat.data.isPrefixOf hay.data

/-- Split a character list at every occurrence of `sep`. -/
def splitChar (sep : Char) : List Char → List (List Char)
  | [] => [[]]
  | c :: rest =>
    if c = sep then [] :: splitChar sep rest
    else
      match splitChar sep rest with
      | [] => [[c]]
      | h :: t => (c :: h) :: t

/-- Python `s.split(sep)` for a single-character separator. -/
def strSplitChar (s : String) (sep : Char) : List String :=
  (splitChar sep s.data).map String.mk

/-- Join strings with a separator (Python `sep.join`). -/
def joinWith (sep : String) : List String → String
  | [] => ""
  | [x] => x
  | x :: xs => x ++ sep ++ joinWith sep xs

/-- Accumulate a decimal digit list into a natural number. -/
def digitsToNat (cs : List Char) : Nat :=
  cs.foldl (fun a c => a * 10 + (c.toNat - 48)) 0

/-! ## Exact decimal arithmetic

Python float values flowing through the QA pipeline are decimal literals
(money amounts, percentages, budgets), so they are modelled as exact
fractions.  `Dec` keeps the numerator and denominator unreduced so every
operation is plain integer arithmetic that the kernel can evaluate; the
`toRat` interpretation is used to state arithmetic facts. -/

structure Dec where
  num : Int
  den : Nat
deriving Repr, DecidableEq

/-- Interpret an exact decimal as a rational number. -/
def Dec.toRat (a : Dec) : Rat := (a.num : Rat) / (a.den : Rat)

/-- Integer literal as a `Dec`. -/
def Dec.ofInt (n : Int) : Dec := ⟨n, 1⟩

/-- `n / 10^k` as a `Dec` (decimal literal with `k` fractional digits). -/
def dec (n : Int) (k : Nat) : Dec := ⟨n, 10 ^ k⟩

/-- Value equality of exact decimals (cross multiplication). -/
def Dec.beq (a b : Dec) : Bool := a.num * (b.den : Int) == b.num * (a.den : Int)

/-- Value order of exact decimals (cross multiplication). -/
def Dec.ble (a b : Dec) : Bool :=
  decide (a.num * (b.den : Int) ≤ b.num * (a.den : Int))

/-- Strict value order of exact decimals. -/
def Dec.blt (a b : Dec) : Bool :=
  decide (a.num * (b.den : Int) < b.num * (a.den : Int))

/-- Addition of exact decimals. -/
def Dec.add (a b : Dec) : Dec :=
  ⟨a.num * b.den + b.num * a.den, a.den * b.den⟩

/-- Negation of exact decimals. -/
def Dec.neg (a : Dec) : Dec := ⟨-a.num, a.den⟩

/-- Subtraction of exact decimals. -/
def Dec.sub (a b : Dec) : Dec := a.add b.neg

/-- Multiplication of exact decimals. -/
def Dec.mul (a b : Dec) : Dec := ⟨a.num * b.num, a.den * b.den⟩

/-- Division of exact decimals (the pipeline guards divisors). -/
def Dec.div (a b : Dec) : Dec :=
  if 0 ≤ b.num then ⟨a.num * b.den, a.den * b.num.natAbs⟩
  else ⟨-(a.num * b.den), a.den * b.num.natAbs⟩

/-- Absolute value of an exact decimal. -/
def Dec.abs (a : Dec) : Dec := ⟨(a.num.natAbs : Int), a.den⟩

/-- Floor of an exact decimal. -/
def Dec.floorD (a : Dec) : Int := a.num.fdiv a.den

/-- Whether the exact decimal is an integer value. -/
def Dec.isInt (a : Dec) : Bool := a.num % (a.den : Int) == 0

/-- The integer value of an integral exact decimal. -/
def Dec.toIntExact (a : Dec) : Int := a.num.fdiv a.den

/-- Digit/decimal-point part of the Python `float(s)` model. -/
def pyFloatCore (sign : Int) (body : List Char) : Option Dec :=
  let intPart := body.takeWhile (fun c => c.isDigit)
  let rest := body.dropWhile (fun c => c.isDigit)
  match rest with
  | [] =>
    if intPart.isEmpty then none
    else some ⟨sign * (digitsToNat intPart : Int), 1⟩
  | c :: frac =>
    if c = '.' && frac.all (fun d => d.isDigit) &&
        (!intPart.isEmpty || !frac.isEmpty) then
      some ⟨sign * ((digitsToNat intPart : Int) * 10 ^ frac.length +
        (digitsToNat frac : Int)), 10 ^ frac.length⟩
    else none

/-- Sign handling of the decimal literal model. -/
def pyFloatAux : List Char → Option Dec
  | [] => pyFloatCore 1 []
  | c :: rest =>
    if c = '-' then pyFloatCore (-1) rest
    else if c = '+' then pyFloatCore 1 rest
    else pyFloatCore 1 (c :: rest)

/-- Model of Python `float(s)` restricted to plain decimal literals
(optional surrounding whitespace, optional sign, digits with an optional
decimal point).  Every numeric string this pipeline feeds to `float` has
this shape; other inputs are rejected with `none`, matching `ValueError`. -/
def pyFloat (s : String) : Option Dec :=
  pyFloatAux (pyStripList s.data)

/-- Least power of ten clearing the denominator (decimal-valued inputs). -/
def decScale (a : Dec) : Option Nat :=
  (List.range 19).find? (fun k => a.num * 10 ^ k % (a.den : Int) == 0)

/-- Render a natural number as `width`-padded decimal digits. -/
def padNat (width n : Nat) : String :=
  let s := toString n
  String.mk (List.replicate (width - s.length) '0') ++ s

/-- Model of CPython `str()` on a float holding an exact decimal value. -/
def qPyStr (a : Dec) : String :=
  if a.isInt then toString a.toIntExact ++ ".0"
  else
    match decScale a with
    | some k =>
      let m := (a.num * 10 ^ k).fdiv a.den
      let sign := if m < 0 then "-" else ""
      let digits := padNat (k + 1) m.natAbs
      let intLen := digits.length - k
      sign ++ String.mk (digits.data.take intLen) ++ "." ++
        String.mk (digits.data.drop intLen)
    | none => toString a.num ++ "/" ++ toString a.den

/-! ## Pandas cell values

A merged-table cell is NaN, a string, an integer, or a float.  Integers and
floats are kept apart because Python `str()` renders them differently. -/

inductive CellVal where
  | na : CellVal
  | s : String → CellVal
  | int : Int → CellVal
  | float : Dec → CellVal
deriving Repr, DecidableEq

/-- Python `pd.isna` on a cell. -/
def CellVal.isna : CellVal → Bool
  | .na => true
  | _ => false

/-- Python truthiness of a cell (`nan` is truthy in Python). -/
def CellVal.truthy : CellVal → Bool
  | .na => true
  | .s v => !v.isEmpty
  | .int n => n ≠ 0
  | .float q => q.num ≠ 0

/-- Python `str()` of a cell value. -/
def CellVal.pyStr : CellVal → String
  | .na => "nan"
  | .s v => v
  | .int n => toString n
  | .float q => qPyStr q

/-! ## `targeting.py`: line-item type and the branch-table validators -/

/-- Embeds `check_line_item_type` (`targeting.py`): derive the line-item
type from the name's platform prefix, and whether the name has `_RM_`. -/
def check_line_item_type (lineItemName : CellVal) : Option String × Bool :=
  match lineItemName with
  | .s name0 =>
    let name := pyStrip (pyUpper name0)
    let isRm := strContains name "_RM_"
    if strStarts name "MOA_" then (some "MOA", isRm)
    else if strStarts name "CTV_" then (some "CTV", isRm)
    else if strStarts name "MOW_" then (some "MOW", isRm)
    else if strStarts name "DE_" then (some "DE", isRm)
    else (none, isRm)
  | _ => (none, false)

/-- Embeds `normalize_list_values` (`targeting.py`): canonicalize one
semicolon-separated list entry (strip, lower, collapse numeric strings). -/
def normalizeListItem (v : String) : String :=
  let v := pyLower (pyStrip v)
  match pyFloat v with
  | some q => if q.isInt then toString q.toIntExact else qPyStr q
  | none => v

/-- Embeds `normalize_list_values` (`targeting.py`). -/
def normalize_list_values (v : CellVal) : String :=
  if v.isna || v = .s "" then ""
  else
    let str :=
      match v with
      | .int n => toString n
      | .float q => if q.isInt then toString q.toIntExact else qPyStr q
      | _ => v.pyStr
    let items := (strSplitChar str ';').map normalizeListItem
    joinWith ";" (items.mergeSort (fun a b => decide (a ≤ b)))

/-- Embeds `compare_lists` (`targeting.py`): order-independent comparison
of semicolon-separated lists after numeric normalization. -/
def compare_lists (actual expected : CellVal) : Bool :=
  if actual.isna && expected.isna then true
  else
    let an := normalize_list_values actual
    let en := normalize_list_values expected
    if an.isEmpty && en.isEmpty then true
    else
      let aset := if an.isEmpty then [] else strSplitChar an ';'
      let eset := if en.isEmpty then [] else strSplitChar en ';'
      aset.all (fun x => eset.contains x) && eset.all (fun x => aset.contains x)

/-- The merged-row columns consumed by the `targeting.py` validators. -/
structure TRow where
  lineItemName : CellVal
  excludeAppBundleList : CellVal
  excludeDomainListId : CellVal
  includeEnvironmentType : CellVal
  advertiserId : CellVal
  briefLdaCompliant : CellVal
deriving Repr

/-- The `is_effectively_empty` helper shared by the list validators:
falsy, NaN, blank, or the literal string `nan`. -/
def is_effectively_empty (v : CellVal) : Bool :=
  !v.truthy || v.isna || pyStrip v.pyStr = "" || pyStrip (pyLower v.pyStr) = "nan"

/-- Embeds `validate_app_bundle_list` (`targeting.py`). -/
def validate_app_bundle_list (row : TRow) : Bool :=
  let tr := check_line_item_type row.lineItemName
  let lineType := tr.1
  let isRm := tr.2
  let appBundle := row.excludeAppBundleList
  let advertiserId := pyStrip row.advertiserId.pyStr
  let ldaCompliant := pyLower (pyStrip row.briefLdaCompliant.pyStr)
  if lineType = some "MOA" || lineType = some "CTV" then
    if ldaCompliant = "yes" then compare_lists appBundle (.s "353")
    else
      let expected := "174"
        ++ (if isRm && lineType = some "MOA" then ";1351" else "")
        ++ (if advertiserId = "90" then ";1358" else "")
      compare_lists appBundle (.s expected)
  else if lineType = some "MOW" || lineType = some "DE" then
    is_effectively_empty appBundle
  else false

/-- Embeds `validate_domain_list` (`targeting.py`). -/
def validate_domain_list (row : TRow) : Bool :=
  let tr := check_line_item_type row.lineItemName
  let lineType := tr.1
  let isRm := tr.2
  let domainList := row.excludeDomainListId
  let advertiserId := pyStrip row.advertiserId.pyStr
  let ldaCompliant := pyLower (pyStrip row.briefLdaCompliant.pyStr)
  if lineType = some "MOW" || lineType = some "DE" then
    if ldaCompliant = "yes" then compare_lists domainList (.s "352")
    else
      let expected := "94"
        ++ (if isRm && lineType = some "MOW" then ";1352" else "")
        ++ (if advertiserId = "90" then ";1357" else "")
      compare_lists domainList (.s expected)
  else if lineType = some "MOA" || lineType = some "CTV" then
    is_effectively_empty domainList
  else false

/-- Embeds `validate_environment_type` (`targeting.py`). -/
def validate_environment_type (row : TRow) : Bool :=
  let tr := check_line_item_type row.lineItemName
  let lineType := tr.1
  let envType := pyStrip row.includeEnvironmentType.pyStr
  if lineType = some "MOA" || lineType = some "CTV" then envType = "1"
  else if lineType = some "MOW" || lineType = some "DE" then envType = "0"
  else false

/-- C10: when no line-item type can be derived from the name, each of the
three branch-table validators returns `false`. -/
theorem unrecognized_line_type_fails_validators (row : TRow)
    (h : (check_line_item_type row.lineItemName).1 = none) :
    validate_app_bundle_list row = false ∧
    validate_domain_list row = false ∧
    validate_environment_type row = false := by
  refine ⟨?_, ?_, ?_⟩ <;>
    simp only [validate_app_bundle_list, validate_domain_list,
      validate_environment_type, h] <;> rfl

/-- C10 witness: a row whose line-item name starts with no recognized
platform prefix fails all three validators. -/
theorem unrecognized_line_type_fails_validators_witness :
    validate_app_bundle_list
      ⟨.s "XX_SBV_Q1_24_BA", .s "174", .s "94", .s "1", .s "90", .s "No"⟩ = false ∧
    validate_domain_list
      ⟨.s "XX_SBV_Q1_24_BA", .s "174", .s "94", .s "1", .s "90", .s "No"⟩ = false ∧
    validate_environment_type
      ⟨.s "XX_SBV_Q1_24_BA", .s "174", .s "94", .s "1", .s "90", .s "No"⟩ = false :=
  unrecognized_line_type_fails_validators
    ⟨.s "XX_SBV_Q1_24_BA", .s "174", .s "94", .s "1", .s "90", .s "No"⟩
    (by decide)

/-! ## `name_assign.py`: naming-rule engine -/

/-- The lookup table inside `extract_product_type_shortform`, in source
order. -/
def shortFormsTable : List (String × String) :=
  [("all outlet rewards", "AOR"), ("ad2ecomm", "A2E"), ("ad2survey", "A2S"),
   ("connected tv", "CTV"), ("sequential", "SQ"), ("volume maximizer", "VMR"),
   ("standard bv", "SBV"), ("post campaign measurement", "PCM"),
   ("circular personalizer", "CircP"), ("price promoter", "CircP_PP"),
   ("trip driver", "CircP_TD")]

/-- Embeds `extract_product_type_shortform` (`name_assign.py`): derive the
product-type short code; `none` models both a non-string input and the
no-match warning path. -/
def extract_product_type_shortform (productType : Option String) : Option String :=
  match productType with
  | none => none
  | some pt0 =>
    let pt := pyLower (pyStrip pt0)
    if strContains pt "price promoter" then some "CircP_PP"
    else if strContains pt "trip driver" then some "CircP_TD"
    else
      match shortFormsTable.find? (fun kv => strContains pt kv.1) with
      | some kv => some kv.2
      | none =>
        if strContains pt "bv" && strContains pt "standard" then some "SBV"
        else none

/-- Embeds `extract_platform_media_type` (`name_assign.py`). -/
def extract_platform_media_type (t : Option String) :
    Option String × Option String :=
  match t with
  | none => (none, none)
  | some t0 =>
    let text := pyStrip t0
    if strContains text "/" then
      let parts := strSplitChar text '/'
      let pf := pyLower (pyStrip (parts.headD ""))
      let md := pyLower (pyStrip (joinWith "/" parts.tail))
      (some pf, some md)
    else
      let tl := pyLower text
      let pf : Option String :=
        if strContains tl "mobile" then some "mobile"
        else if strContains tl "desktop" then some "desktop"
        else if strContains tl "ctv" || strContains tl "connected tv" then some "ctv"
        else none
      let md : Option String :=
        if strContains tl "banner" then some "banner"
        else if strContains tl "rich media" then some "rich media"
        else if strContains tl "video" then some "video"
        else none
      (pf, md)

/-- Embeds `get_platform_prefix` (`name_assign.py`): the candidate naming
prefixes for a derived platform string. -/
def platformPrefixesOf (platform : Option String) : Option (List String) :=
  match platform with
  | none => none
  | some p0 =>
    let p := pyLower p0
    if strContains p "mobile" then some ["MOA_", "MOW_", "MO_"]
    else if strContains p "desktop" then some ["DE_"]
    else if strContains p "ctv" then some ["CTV_"]
    else none

/-- Embeds `get_media_type_code` (`name_assign.py`). -/
def get_media_type_code (mediaType : Option String) : Option String :=
  match mediaType with
  | none => none
  | some m0 =>
    let m := pyLower m0
    if strContains m "banner" then some "_BA_"
    else if strContains m "rich media" then some "_RM_"
    else if strContains m "video" then some "_VI_"
    else none

/-- The `checks` configuration dictionary handed to `check_naming_format`;
optional fields model keys that `checks.get` may find absent. -/
structure ChecksConfig where
  type : String := ""
  yearPattern : Option String := none
  quarterRequired : Bool := true
  productShortForms : List String := []
  isHub : Bool := false
  isIfo : Bool := false
  isLdaRequired : Bool := false
  viewabilityPerc : Option Nat := none
  isGeoRequired : Option Bool := none
  platformPrefixes : Option (List String) := none
  mediaTypeCode : Option String := none
  liHasGeo : Bool := false
  liPlatformPfx : Option String := none
  liPlatform : Option String := none
  liMediaTypeCode : Option String := none
  measurementTypeStrBrief : Option String := none
deriving Repr

/-- The boolean/tag-set results dictionary of `check_naming_format`
(`True` means an issue was found). -/
structure CheckResults where
  hasIssues : Bool := false
  hasSpaces : Bool := false
  hasSpecialChars : Bool := false
  missingQuarter : Bool := false
  missingYear : Bool := false
  missingProductType : Bool := false
  missingHubIfoTag : List String := []
  missingLda : Bool := false
  missingViewability : Bool := false
  geoMismatch : Bool := false
  platformMismatch : Bool := false
  mediaTypeMismatch : Bool := false
deriving DecidableEq, Repr

/-- The viewability-token test shared by the campaign and line-item
branches of `check_naming_format`. -/
def viewabilityMissing (nameUpper : String) (vp : Option Nat) : Bool :=
  match vp with
  | some p =>
    if p ≠ 0 then
      let ps := toString p
      !(strContains nameUpper ("_" ++ ps ++ "_VIEWABILITY_") ||
        strContains nameUpper ("_" ++ ps ++ "VIEWABILITY_") ||
        strContains nameUpper ("_" ++ ps ++ "_"))
    else false
  | none => false

/-- The final `has_issues` aggregation of `check_naming_format`. -/
def aggregateIssues (r : CheckResults) : CheckResults :=
  { r with hasIssues :=
      r.hasSpaces || r.hasSpecialChars || r.missingQuarter || r.missingYear ||
      r.missingProductType || r.missingLda || r.missingViewability ||
      r.geoMismatch || r.platformMismatch || r.mediaTypeMismatch ||
      !r.missingHubIfoTag.isEmpty }

/-- The main path of `check_naming_format` on a stripped non-empty name. -/
def checkNameMain (nm : String) (checks : ChecksConfig) : CheckResults :=
  let nameUpper := pyUpper nm
  let base : CheckResults :=
    { hasSpaces := strContains nm " "
      hasSpecialChars := !nm.data.all (fun c => c.isAlphanum || c = '_' || c = ' ')
      missingQuarter := checks.quarterRequired &&
        !(["_Q1_", "_Q2_", "_Q3_", "_Q4_"].any (fun q => strContains nameUpper q))
      missingYear :=
        match checks.yearPattern with
        | some yp => !((strSplitChar yp '|').any (fun alt => strContains nameUpper (pyUpper alt)))
        | none => false }
  let r :=
    if checks.type = "campaign" then
      { base with
        missingProductType := !checks.productShortForms.isEmpty &&
          !(checks.productShortForms.any (fun f =>
            strContains nameUpper ("_" ++ pyUpper f ++ "_")))
        missingHubIfoTag :=
          (if checks.isHub && !strContains nameUpper "_INFMT_" then ["INFMT"] else []) ++
          (if checks.isIfo && !strContains nameUpper "_IFO_" then ["IFO"] else [])
        missingLda := checks.isLdaRequired && !strContains nameUpper "_LDA_"
        missingViewability := viewabilityMissing nameUpper checks.viewabilityPerc }
    else if checks.type = "line_item" then
      { base with
        missingViewability := viewabilityMissing nameUpper checks.viewabilityPerc
        geoMismatch :=
          match checks.isGeoRequired with
          | some true => !strContains nameUpper "_GEO_"
          | some false => strContains nameUpper "_GEO_"
          | none => false
        platformMismatch :=
          match checks.platformPrefixes with
          | some pfxs => !pfxs.isEmpty &&
              !(pfxs.any (fun p => strStarts nameUpper (pyUpper p)))
          | none => false
        mediaTypeMismatch :=
          match checks.mediaTypeCode with
          | some c => !c.isEmpty && !strContains nameUpper (pyUpper c)
          | none => false }
    else if checks.type = "creative" then
      let isNonHubMobile := checks.liPlatform = some "mobile" &&
        (match checks.measurementTypeStrBrief with
         | some ms => !strContains (pyUpper ms) "HUB"
         | none => true)
      { base with
        geoMismatch :=
          (checks.liHasGeo && !strContains nameUpper "_GEO_") ||
          (!checks.liHasGeo && strContains nameUpper "_GEO_")
        platformMismatch :=
          match checks.liPlatformPfx with
          | some pfx =>
            if pfx.isEmpty then false
            else
              let startsLi := strStarts nameUpper (pyUpper pfx)
              let startsMo := strStarts nameUpper "MO_"
              if isNonHubMobile && (pfx = "MOA_" || pfx = "MOW_") then
                !(startsLi || startsMo)
              else !startsLi
          | none => false
        mediaTypeMismatch :=
          match checks.liMediaTypeCode with
          | some c => !c.isEmpty && !strContains nameUpper (pyUpper c)
          | none => false }
    else base
  aggregateIssues r

/-- Embeds `check_naming_format` (`name_assign.py`): an invalid or empty
name short-circuits with only the overall issue flag set. -/
def check_naming_format (name : CellVal) (checks : ChecksConfig) : CheckResults :=
  match name with
  | .s raw =>
    if (pyStrip raw).isEmpty then { hasIssues := true }
    else checkNameMain (pyStrip raw) checks
  | _ => { hasIssues := true }

/-! ### Brief-field derivations performed in `main` (`name_assign.py`) -/

/-- `is_hub` derivation (`main`, step 3): the Measurement Type string is
truthy and contains `HUB:` after upper-casing. -/
def isHubOfMeasurement (m : Option String) : Bool :=
  match m with
  | some s => !s.isEmpty && strContains (pyUpper s) "HUB:"
  | none => false

/-- `is_ifo` derivation (`main`, step 3). -/
def isIfoOfMeasurement (m : Option String) : Bool :=
  match m with
  | some s => !s.isEmpty &&
      (strContains (pyUpper s) "IFO:" ||
       strContains (pyUpper s) "IN-FLIGHT OPTIMIZATION")
  | none => false

/-- `is_lda_required` derivation (`main`, step 5). -/
def isLdaRequiredOfBrief (lda : Option String) : Bool :=
  match lda with
  | some s => !s.isEmpty && pyLower (pyStrip s) = "yes"
  | none => false

/-- The geo-required boolean derived per row in `main` before the line-item
check: recognized yes/no spellings map to a boolean, anything else
(including the `N/A` sentinel) stays `none`. -/
def deriveGeoBool (geoRaw : CellVal) : Option Bool :=
  match geoRaw with
  | .s raw =>
    let g := pyLower (pyStrip raw)
    if g = "yes" || g = "true" || g = "y" || g = "1" then some true
    else if g = "no" || g = "false" || g = "n" || g = "0" || g = "" then some false
    else none
  | _ => none

/-- The campaign `checks` dictionary built in `main` (`name_assign.py`). -/
def campaignChecksConfig (yearPat : Option String) (shortForms : List String)
    (measurement lda : Option String) (viewPerc : Option Nat) : ChecksConfig :=
  { type := "campaign", yearPattern := yearPat, productShortForms := shortForms,
    isHub := isHubOfMeasurement measurement, isIfo := isIfoOfMeasurement measurement,
    isLdaRequired := isLdaRequiredOfBrief lda, viewabilityPerc := viewPerc,
    quarterRequired := true }

/-- The line-item `checks` dictionary built in `main` (`name_assign.py`),
from the row's merged `brief_geo_required` and `brief_platform_media`. -/
def liChecksConfig (yearPat : Option String) (viewPerc : Option Nat)
    (geoRaw platformMediaRaw : CellVal) : ChecksConfig :=
  let pm : Option String :=
    match platformMediaRaw with
    | .s v => if v ≠ "N/A" then some v else none
    | _ => none
  let pfmd := extract_platform_media_type pm
  { type := "line_item", yearPattern := yearPat, viewabilityPerc := viewPerc,
    isGeoRequired := deriveGeoBool geoRaw,
    platformPrefixes := platformPrefixesOf pfmd.1,
    mediaTypeCode := get_media_type_code pfmd.2, quarterRequired := true }

/-- The creative `checks` dictionary built in `main` (`name_assign.py`),
from the owning line item's derived properties. -/
def creativeChecksConfig (yearPat : Option String) (liHasGeo : Bool)
    (liPfx liPlatform measurement liCode : Option String)
    (viewPerc : Option Nat) : ChecksConfig :=
  { type := "creative", yearPattern := yearPat, liHasGeo := liHasGeo,
    liPlatformPfx := liPfx, liPlatform := liPlatform,
    measurementTypeStrBrief := measurement, liMediaTypeCode := liCode,
    viewabilityPerc := viewPerc, quarterRequired := true }

/-- Membership of the HUB tag in the combined missing-tag set. -/
theorem infmt_mem (a b : Bool) :
    ("INFMT" ∈ ((if a = true then ["INFMT"] else []) ++
      (if b = true then ["IFO"] else [])) ↔ a = true) := by
  cases a <;> cases b <;> simp

/-- A truthy Measurement Type cell is implied by containing `HUB:`. -/
theorem isHub_eq_contains (m : String) :
    isHubOfMeasurement (some m) = strContains (pyUpper m) "HUB:" := by
  by_cases hm : m = ""
  · subst hm; decide
  · cases he : m.isEmpty
    · simp [isHubOfMeasurement, he]
    · exact absurd ((String.isEmpty_iff m).mp he) hm

/-- C6: Account Product Type "BV - Standard" derives short code `SBV`; the
campaign `_INFMT_` tag is flagged missing exactly when the Measurement Type
contains `HUB:` and the name lacks the tag; the campaign `_LDA_` tag is
flagged missing exactly when the brief LDA value is "Yes" and the name
lacks the tag. -/
theorem naming_token_derivation (yp : Option String) (sf : List String)
    (vp : Option Nat) (m l name : String) (hname : ¬(pyStrip name).isEmpty = true) :
    extract_product_type_shortform (some "BV - Standard") = some "SBV" ∧
    ("INFMT" ∈ (check_naming_format (.s name)
        (campaignChecksConfig yp sf (some m) (some l) vp)).missingHubIfoTag
      ↔ (strContains (pyUpper m) "HUB:" = true ∧
         strContains (pyUpper (pyStrip name)) "_INFMT_" = false)) ∧
    ((check_naming_format (.s name)
        (campaignChecksConfig yp sf (some m) (some l) vp)).missingLda = true
      ↔ (pyLower (pyStrip l) = "yes" ∧
         strContains (pyUpper (pyStrip name)) "_LDA_" = false)) := by
  refine ⟨by decide, ?_, ?_⟩
  · simp only [check_naming_format, hname, if_false, Bool.false_eq_true,
      checkNameMain, aggregateIssues, campaignChecksConfig]
    simp only [reduceIte]
    rw [infmt_mem, isHub_eq_contains]
    simp
  · simp only [check_naming_format, hname, if_false, Bool.false_eq_true,
      checkNameMain, aggregateIssues, campaignChecksConfig, isLdaRequiredOfBrief]
    simp only [reduceIte, Bool.and_eq_true, Bool.not_eq_eq_eq_not, Bool.not_true,
      decide_eq_true_eq]
    constructor
    · rintro ⟨⟨-, hp⟩, hq⟩
      exact ⟨hp, by simpa using hq⟩
    · rintro ⟨hp, hq⟩
      refine ⟨⟨?_, hp⟩, by simpa using hq⟩
      cases he : l.isEmpty
      · rfl
      · rw [(String.isEmpty_iff l).mp he] at hp
        exact absurd hp (by decide)

/-- C6 witness: concrete brief values exercising all three conjuncts. -/
theorem naming_token_derivation_witness :
    extract_product_type_shortform (some "BV - Standard") = some "SBV" ∧
    ("INFMT" ∈ (check_naming_format (.s "ACME_SBV_Q1_24")
        (campaignChecksConfig none [] (some "HUB: Something") (some "Yes") none)).missingHubIfoTag
      ↔ (strContains (pyUpper "HUB: Something") "HUB:" = true ∧
         strContains (pyUpper (pyStrip "ACME_SBV_Q1_24")) "_INFMT_" = false)) ∧
    ((check_naming_format (.s "ACME_SBV_Q1_24")
        (campaignChecksConfig none [] (some "HUB: Something") (some "Yes") none)).missingLda = true
      ↔ (pyLower (pyStrip "Yes") = "yes" ∧
         strContains (pyUpper (pyStrip "ACME_SBV_Q1_24")) "_LDA_" = false)) :=
  naming_token_derivation none [] none "HUB: Something" "Yes" "ACME_SBV_Q1_24" (by decide)

/-- C7: a creative owned by a mobile, non-HUB line item passes the platform
check with the line item's own prefix or the generic `MO_`; in every other
configuration with a derived prefix, only the exact prefix passes. -/
theorem creative_platform_rule (yp : Option String) (liHasGeo : Bool)
    (pfx ms name : String) (liPf : Option String) (liCode : Option String)
    (vp : Option Nat) (hname : ¬(pyStrip name).isEmpty = true) :
    ((liPf = some "mobile" ∧ strContains (pyUpper ms) "HUB" = false ∧
        (pfx = "MOA_" ∨ pfx = "MOW_")) →
      ((check_naming_format (.s name)
          (creativeChecksConfig yp liHasGeo (some pfx) liPf (some ms) liCode vp)).platformMismatch = false ↔
        (strStarts (pyUpper (pyStrip name)) (pyUpper pfx) = true ∨
         strStarts (pyUpper (pyStrip name)) "MO_" = true))) ∧
    (¬(liPf = some "mobile" ∧ strContains (pyUpper ms) "HUB" = false ∧
        (pfx = "MOA_" ∨ pfx = "MOW_")) → pfx ≠ "" →
      ((check_naming_format (.s name)
          (creativeChecksConfig yp liHasGeo (some pfx) liPf (some ms) liCode vp)).platformMismatch = false ↔
        strStarts (pyUpper (pyStrip name)) (pyUpper pfx) = true)) := by
  constructor
  · rintro ⟨hp, hh, hpfx⟩
    subst hp
    have hne : ¬pfx.isEmpty = true := by
      rcases hpfx with h | h <;> subst h <;> decide
    simp only [check_naming_format, hname, if_false, Bool.false_eq_true,
      checkNameMain, aggregateIssues, creativeChecksConfig]
    simp only [reduceIte, hne, hh]
    rcases hpfx with h | h <;> subst h <;> simp <;>
      all_goals cases hs3 : strStarts (pyUpper (pyStrip name)) "MO_" <;> simp_all
  · intro hstd hne
    have hne2 : ¬pfx.isEmpty = true := by
      simpa [String.isEmpty_iff] using hne
    simp only [check_naming_format, hname, if_false, Bool.false_eq_true,
      checkNameMain, aggregateIssues, creativeChecksConfig]
    simp only [reduceIte, hne2]
    push_neg at hstd
    by_cases hp : liPf = some "mobile"
    · by_cases hh : strContains (pyUpper ms) "HUB" = false
      · have hpx := hstd hp hh
        simp [hp, hh, hpx.1, hpx.2]
      · have hh2 : strContains (pyUpper ms) "HUB" = true := by
          cases h : strContains (pyUpper ms) "HUB"
          · exact absurd h hh
          · rfl
        simp [hp, hh2]
    · simp [hp]

/-- C7 witness: a generic `MO_` creative under a non-HUB mobile `MOA_` line
item; the special carve-out accepts it, and no other prefix is accepted in
the standard case. -/
theorem creative_platform_rule_witness :
    ((some "mobile" = some "mobile" ∧
        strContains (pyUpper "Viewability only") "HUB" = false ∧
        ("MOA_" = "MOA_" ∨ "MOA_" = "MOW_")) →
      ((check_naming_format (.s "MO_CREATIVE_Q1_24")
          (creativeChecksConfig none false (some "MOA_") (some "mobile")
            (some "Viewability only") none none)).platformMismatch = false ↔
        (strStarts (pyUpper (pyStrip "MO_CREATIVE_Q1_24")) (pyUpper "MOA_") = true ∨
         strStarts (pyUpper (pyStrip "MO_CREATIVE_Q1_24")) "MO_" = true))) ∧
    (¬(some "mobile" = some "mobile" ∧
        strContains (pyUpper "Viewability only") "HUB" = false ∧
        ("MOA_" = "MOA_" ∨ "MOA_" = "MOW_")) → "MOA_" ≠ "" →
      ((check_naming_format (.s "MO_CREATIVE_Q1_24")
          (creativeChecksConfig none false (some "MOA_") (some "mobile")
            (some "Viewability only") none none)).platformMismatch = false ↔
        strStarts (pyUpper (pyStrip "MO_CREATIVE_Q1_24")) (pyUpper "MOA_") = true)) :=
  creative_platform_rule none false "MOA_" "Viewability only" "MO_CREATIVE_Q1_24"
    (some "mobile") none none (by decide)

/-- C4 counterexample: a row whose geo-required context degraded to the
`N/A` sentinel and whose line-item name carries `_GEO_` — the claim says
the token is then forbidden (a failing check), but the engine reports no
geo mismatch: the `N/A` case is a "don't care", not a definite outcome. -/
theorem geo_na_dont_care_counterexample :
    deriveGeoBool (.s "N/A") = none ∧
    strContains (pyUpper (pyStrip "MOA_SBV_Q1_24_GEO_BA")) "_GEO_" = true ∧
    (check_naming_format (.s "MOA_SBV_Q1_24_GEO_BA")
        (liChecksConfig none none (.s "N/A") (.s "Mobile/Banner"))).geoMismatch = false := by
  refine ⟨by decide, by decide, by decide⟩

/-- C4 amended: the `_GEO_` token is required iff the geo-required flag
normalizes into the recognized yes-spellings, forbidden iff it normalizes
into the recognized no-spellings, and for any other flag value (including
the `N/A` sentinel) the geo naming check reports no mismatch regardless of
the name. -/
theorem geo_check_tristate (yp : Option String) (vp : Option Nat)
    (graw : String) (pmRaw : CellVal) (name : String)
    (hname : ¬(pyStrip name).isEmpty = true) :
    (check_naming_format (.s name)
        (liChecksConfig yp vp (.s graw) pmRaw)).geoMismatch = true ↔
      ((pyLower (pyStrip graw) ∈ (["yes", "true", "y", "1"] : List String) ∧
        strContains (pyUpper (pyStrip name)) "_GEO_" = false) ∨
       (pyLower (pyStrip graw) ∈ (["no", "false", "n", "0", ""] : List String) ∧
        strContains (pyUpper (pyStrip name)) "_GEO_" = true)) := by
  simp only [check_naming_format, hname, if_false, Bool.false_eq_true,
    checkNameMain, aggregateIssues, liChecksConfig, deriveGeoBool]
  simp only [reduceIte, Bool.or_eq_true, decide_eq_true_eq,
    List.mem_cons, List.mem_singleton, List.not_mem_nil, or_false]
  generalize pyLower (pyStrip graw) = g
  by_cases hC1 : ((g = "yes" ∨ g = "true") ∨ g = "y") ∨ g = "1"
  · rcases hC1 with ((h | h) | h) | h <;> subst h <;>
      cases hP : strContains (pyUpper (pyStrip name)) "_GEO_" <;> simp [hP]
  · by_cases hC2 : (((g = "no" ∨ g = "false") ∨ g = "n") ∨ g = "0") ∨ g = ""
    · rcases hC2 with (((h | h) | h) | h) | h <;> subst h <;>
        cases hP : strContains (pyUpper (pyStrip name)) "_GEO_" <;> simp [hP]
    · simp [if_neg hC1, if_neg hC2]
      tauto

/-- C4 witness: flag "Yes" with a `_GEO_`-free name is a definite geo
mismatch under the amended rule. -/
theorem geo_check_tristate_witness :
    (check_naming_format (.s "MOA_SBV_Q1_24_BA")
        (liChecksConfig none none (.s "Yes") (.s "Mobile/Banner"))).geoMismatch = true ↔
      ((pyLower (pyStrip "Yes") ∈ (["yes", "true", "y", "1"] : List String) ∧
        strContains (pyUpper (pyStrip "MOA_SBV_Q1_24_BA")) "_GEO_" = false) ∨
       (pyLower (pyStrip "Yes") ∈ (["no", "false", "n", "0", ""] : List String) ∧
        strContains (pyUpper (pyStrip "MOA_SBV_Q1_24_BA")) "_GEO_" = true)) :=
  geo_check_tristate none none "Yes" (.s "Mobile/Banner") "MOA_SBV_Q1_24_BA" (by decide)

/-! ## `targeting_general.py`: CPM bidding formula -/

/-- Fuel-driven rewriting for Python `str.replace`; the fuel is one more
than the input length, so it never runs out. -/
def replaceFuel (pat rep : List Char) : Nat → List Char → List Char
  | 0, l => l
  | _ + 1, [] => []
  | f + 1, c :: rest =>
    if pat ≠ [] ∧ pat.isPrefixOf (c :: rest) then
      rep ++ replaceFuel pat rep f (rest.drop (pat.length - 1))
    else c :: replaceFuel pat rep f rest

/-- Python `s.replace(pat, rep)` for non-empty `pat`. -/
def strReplace (s pat rep : String) : String :=
  String.mk (replaceFuel pat.data rep.data (s.data.length + 1) s.data)

/-- Embeds `get_base_cpm` (`targeting_general.py`): the fixed base-CPM
lookup by platform/media, geo requirement and LDA compliance. -/
def get_base_cpm (platformMedia geoRequired ldaCompliant : String) : Option Dec :=
  let pm := pyStrip (pyLower platformMedia)
  let geo := pyStrip (pyLower geoRequired)
  let lda := pyStrip (pyLower ldaCompliant)
  if strStarts pm "mobile" then
    if strContains pm "banner" then
      some (if geo = "yes" then dec 234 2 else dec 200 2)
    else if strContains pm "rich media" then some (dec 315 2)
    else if strContains pm "video" then some (dec 630 2)
    else none
  else if strStarts pm "desktop" then
    if strContains pm "banner" then
      some (if geo = "yes" then dec 289 2 else dec 236 2)
    else if strContains pm "rich media" then some (dec 289 2)
    else if strContains pm "video" then some (dec 735 2)
    else none
  else if strStarts pm "ctv" then
    some (if lda = "yes" then dec 1900 2 else dec 1700 2)
  else none

/-- Embeds `normalize_viewability_goal` (`targeting_general.py`). -/
def normalize_viewability_goal (viewabilityGoal : String) : Option Dec :=
  match pyFloat (strReplace viewabilityGoal "%" "") with
  | some x => some (if x.blt (Dec.ofInt 1) then x.mul (Dec.ofInt 100) else x)
  | none => none

/-- Round to nearest integer, ties to even (the rounding of Python
`format` on exact decimal values). -/
def roundHalfEven (x : Dec) : Int :=
  let f := x.floorD
  let frac := x.sub (Dec.ofInt f)
  if frac.blt (dec 5 1) then f
  else if (dec 5 1).blt frac then f + 1
  else if f % 2 = 0 then f else f + 1

/-- Fuel-driven decimal digit rendering of a natural number (standard
big-endian digits, as Python prints integers). -/
def natDecDigits : Nat → Nat → List Char
  | 0, _ => []
  | f + 1, n =>
    if n < 10 then [Char.ofNat (48 + n)]
    else natDecDigits f (n / 10) ++ [Char.ofNat (48 + n % 10)]

/-- Decimal string of a natural number. -/
def natDecStr (n : Nat) : String := String.mk (natDecDigits (n + 1) n)

/-- Python `"{:.1f}".format(x)` on an exact decimal value: round the
tenths half-to-even and print one fractional digit. -/
def formatFix1 (x : Dec) : String :=
  let t := roundHalfEven (x.mul (Dec.ofInt 10))
  let n := t.natAbs
  (if t < 0 then "-" else "") ++ natDecStr (n / 10) ++ "." ++ natDecStr (n % 10)

/-- The viewability add-on tables of `get_viewability_addon_cpm`
(`targeting_general.py`), in dictionary insertion order. -/
def viewabilityCpms : List (String × List ((Dec × Dec) × Dec)) :=
  [("mobile/banner",
    [((Dec.ofInt 60, Dec.ofInt 74), dec 15 2), ((Dec.ofInt 75, Dec.ofInt 84), dec 40 2),
     ((Dec.ofInt 85, Dec.ofInt 94), dec 143 2), ((Dec.ofInt 95, Dec.ofInt 100), dec 247 2)]),
   ("mobile/geo-targeting",
    [((Dec.ofInt 60, Dec.ofInt 74), dec 15 2), ((Dec.ofInt 75, Dec.ofInt 84), dec 47 2),
     ((Dec.ofInt 85, Dec.ofInt 94), dec 167 2), ((Dec.ofInt 95, Dec.ofInt 100), dec 290 2)]),
   ("mobile/rich media",
    [((Dec.ofInt 60, Dec.ofInt 74), dec 15 2), ((Dec.ofInt 75, Dec.ofInt 84), dec 63 2),
     ((Dec.ofInt 85, Dec.ofInt 94), dec 225 2), ((Dec.ofInt 95, Dec.ofInt 100), dec 390 2)]),
   ("mobile/video",
    [((Dec.ofInt 60, Dec.ofInt 74), dec 245 2), ((Dec.ofInt 75, Dec.ofInt 84), dec 390 2),
     ((Dec.ofInt 85, Dec.ofInt 94), dec 450 2), ((Dec.ofInt 95, Dec.ofInt 100), dec 780 2)]),
   ("desktop/banner",
    [((Dec.ofInt 60, Dec.ofInt 74), dec 45 2), ((Dec.ofInt 75, Dec.ofInt 84), dec 83 2),
     ((Dec.ofInt 85, Dec.ofInt 94), dec 295 2), ((Dec.ofInt 95, Dec.ofInt 100), dec 506 2)]),
   ("desktop/geo-targeting",
    [((Dec.ofInt 60, Dec.ofInt 74), dec 45 2), ((Dec.ofInt 75, Dec.ofInt 84), dec 102 2),
     ((Dec.ofInt 85, Dec.ofInt 94), dec 360 2), ((Dec.ofInt 95, Dec.ofInt 100), dec 619 2)]),
   ("desktop/rich media",
    [((Dec.ofInt 60, Dec.ofInt 74), dec 45 2), ((Dec.ofInt 75, Dec.ofInt 84), dec 102 2),
     ((Dec.ofInt 85, Dec.ofInt 94), dec 360 2), ((Dec.ofInt 95, Dec.ofInt 100), dec 619 2)]),
   ("desktop/video",
    [((Dec.ofInt 60, Dec.ofInt 74), dec 245 2), ((Dec.ofInt 75, Dec.ofInt 84), dec 455 2),
     ((Dec.ofInt 85, Dec.ofInt 94), dec 917 2), ((Dec.ofInt 95, Dec.ofInt 100), dec 1575 2)])]

/-- Embeds `get_viewability_addon_cpm` (`targeting_general.py`): the
bucketed viewability add-on plus the normalized percentage string. -/
def get_viewability_addon_cpm (platformMedia viewabilityGoal : String) :
    Dec × String :=
  let pm := pyStrip (pyLower platformMedia)
  match normalize_viewability_goal viewabilityGoal with
  | none => (Dec.ofInt 0, "N/A")
  | some v =>
    let nv := formatFix1 v ++ "%"
    match viewabilityCpms.find? (fun kv => strStarts pm kv.1) with
    | some kv =>
      match kv.2.find? (fun rc => rc.1.1.ble v && v.ble rc.1.2) with
      | some rc => (rc.2, nv)
      | none => (Dec.ofInt 0, "N/A")
    | none => (Dec.ofInt 0, "N/A")

/-- Leading/trailing brace characters, for Python `str.strip` with the
brace character set. -/
def isBrace (c : Char) : Bool :=
  c = Char.ofNat 123 || c = Char.ofNat 125

/-- Embeds `extract_cpm_bid` (`targeting_general.py`): pull the CPM bid
out of the JSON-like bidding-value blob. -/
def extract_cpm_bid (value : String) : Option Dec :=
  let noBraces :=
    String.mk (((value.data.dropWhile isBrace).reverse.dropWhile isBrace).reverse)
  let cleaned := strReplace noBraces "\"" ""
  match strSplitChar cleaned ':' with
  | [k, v] => if strContains k "cpm_bid" then pyFloat (pyStrip v) else none
  | _ => none

/-- The merged-row columns consumed by `validate_bidding_value`. -/
structure GRow where
  briefPlatformMedia : CellVal
  briefGeoRequired : CellVal
  briefLdaCompliant : CellVal
  briefViewabilityGoal : CellVal
  biddingValues : CellVal
deriving Repr

/-- The tuple returned by `validate_bidding_value` (the human-readable
explanation string is omitted). -/
structure BidValidation where
  isValid : Bool
  expectedCpm : Dec
  actualCpm : Dec
  normalizedViewability : String
deriving Repr

/-- Embeds `validate_bidding_value` (`targeting_general.py`): exact-match
comparison of the extracted CPM against base + viewability add-on. -/
def validate_bidding_value (row : GRow) : BidValidation :=
  let platformMedia := pyStrip row.briefPlatformMedia.pyStr
  let geoRequired := pyStrip row.briefGeoRequired.pyStr
  let ldaCompliant := pyStrip row.briefLdaCompliant.pyStr
  let viewabilityGoal := pyStrip row.briefViewabilityGoal.pyStr
  let biddingValue := row.biddingValues.pyStr
  match extract_cpm_bid biddingValue with
  | none => ⟨false, Dec.ofInt 0, Dec.ofInt 0, "N/A"⟩
  | some actual =>
    match get_base_cpm platformMedia geoRequired ldaCompliant with
    | none => ⟨false, Dec.ofInt 0, actual, "N/A"⟩
    | some base =>
      let ad := get_viewability_addon_cpm platformMedia viewabilityGoal
      let expected := base.add ad.1
      ⟨expected.beq actual, expected, actual, ad.2⟩

/-- Value equality of exact decimals agrees with rational equality when
the denominators are nonzero. -/
theorem dec_beq_iff (a b : Dec) (ha : a.den ≠ 0) (hb : b.den ≠ 0) :
    a.beq b = true ↔ a.toRat = b.toRat := by
  have ha2 : ((a.den : Rat)) ≠ 0 := by exact_mod_cast ha
  have hb2 : ((b.den : Rat)) ≠ 0 := by exact_mod_cast hb
  unfold Dec.beq Dec.toRat
  rw [beq_iff_eq, div_eq_div_iff ha2 hb2]
  constructor <;> intro h <;> exact_mod_cast h

/-- Addition of exact decimals interprets as rational addition. -/
theorem dec_add_toRat (a b : Dec) (ha : a.den ≠ 0) (hb : b.den ≠ 0) :
    (a.add b).toRat = a.toRat + b.toRat := by
  have ha2 : ((a.den : Rat)) ≠ 0 := by exact_mod_cast ha
  have hb2 : ((b.den : Rat)) ≠ 0 := by exact_mod_cast hb
  unfold Dec.add Dec.toRat
  push_cast
  field_simp

/-- Every decimal produced by the digit parser has a positive
denominator. -/
theorem pyFloatCore_den_pos (sign : Int) (body : List Char) (x : Dec)
    (h : pyFloatCore sign body = some x) : 0 < x.den := by
  simp only [pyFloatCore] at h
  split at h
  · split at h
    · exact absurd h (by simp)
    · simp only [Option.some.injEq] at h
      subst h
      exact Nat.one_pos
  · split at h
    · simp only [Option.some.injEq] at h
      subst h
      exact pow_pos (by norm_num) _
    · exact absurd h (by simp)

/-- Every decimal produced by `pyFloat` has a positive denominator. -/
theorem pyFloat_den_pos (s : String) (x : Dec) (h : pyFloat s = some x) :
    0 < x.den := by
  simp only [pyFloat] at h
  rcases hcs : pyStripList s.data with _ | ⟨c, rest⟩ <;> rw [hcs] at h <;>
    simp only [pyFloatAux] at h
  · exact pyFloatCore_den_pos _ _ _ h
  · split at h
    · exact pyFloatCore_den_pos _ _ _ h
    · split at h <;> exact pyFloatCore_den_pos _ _ _ h

/-- Every decimal extracted from a bidding blob has a positive
denominator. -/
theorem extract_cpm_den_pos (v : String) (x : Dec)
    (h : extract_cpm_bid v = some x) : 0 < x.den := by
  simp only [extract_cpm_bid] at h
  split at h
  · split at h
    · exact pyFloat_den_pos _ _ h
    · exact absurd h (by simp)
  · exact absurd h (by simp)

/-- Every base CPM has a positive denominator. -/
theorem base_cpm_den_pos (pm g l : String) (b : Dec)
    (h : get_base_cpm pm g l = some b) : 0 < b.den := by
  simp only [get_base_cpm] at h
  repeat' split at h
  all_goals try simp only [Option.some.injEq] at h
  all_goals first
    | exact absurd h (by simp)
    | (subst h; norm_num [dec])

/-- Every viewability add-on has a positive denominator. -/
theorem addon_den_pos (pm vg : String) :
    0 < (get_viewability_addon_cpm pm vg).1.den := by
  cases hv : normalize_viewability_goal vg with
  | none => simp [get_viewability_addon_cpm, hv, Dec.ofInt]
  | some v =>
    cases hkv : viewabilityCpms.find?
        (fun kv => strStarts (pyStrip (pyLower pm)) kv.1) with
    | none => simp [get_viewability_addon_cpm, hv, hkv, Dec.ofInt]
    | some kv =>
      cases hrc : kv.2.find? (fun rc => rc.1.1.ble v && v.ble rc.1.2) with
      | none => simp [get_viewability_addon_cpm, hv, hkv, hrc, Dec.ofInt]
      | some rc =>
        have hmem := List.mem_of_find?_eq_some hkv
        have hmem2 := List.mem_of_find?_eq_some hrc
        have hall : ∀ kv2 ∈ viewabilityCpms, ∀ rc2 ∈ kv2.2, 0 < rc2.2.den := by
          decide
        have hpos := hall _ hmem _ hmem2
        simp only [get_viewability_addon_cpm, hv, hkv, hrc]
        exact hpos

/-- C1: whenever a CPM is extracted and a base rule matches, the bidding
check passes iff the actual CPM exactly equals base + viewability add-on
(as exact rational values, no tolerance); for Mobile/Banner, geo "No",
goal "80%" the expectation is 2.00 + 0.40 = 2.40, so an actual of 2.40
passes and 2.41 fails. -/
theorem cpm_bidding_exactness :
    (∀ (row : GRow) (a b : Dec),
      extract_cpm_bid row.biddingValues.pyStr = some a →
      get_base_cpm (pyStrip row.briefPlatformMedia.pyStr)
        (pyStrip row.briefGeoRequired.pyStr)
        (pyStrip row.briefLdaCompliant.pyStr) = some b →
      ((validate_bidding_value row).isValid = true ↔
        b.toRat + (get_viewability_addon_cpm (pyStrip row.briefPlatformMedia.pyStr)
          (pyStrip row.briefViewabilityGoal.pyStr)).1.toRat = a.toRat)) ∧
    (get_base_cpm "Mobile/Banner" "No" "No").map Dec.toRat = some 2 ∧
    (get_viewability_addon_cpm "Mobile/Banner" "80%").1.toRat = 2/5 ∧
    (validate_bidding_value
      ⟨.s "Mobile/Banner", .s "No", .s "No", .s "80%",
       .s "\x7b\"cpm_bid\": 2.40\x7d"⟩).isValid = true ∧
    (validate_bidding_value
      ⟨.s "Mobile/Banner", .s "No", .s "No", .s "80%",
       .s "\x7b\"cpm_bid\": 2.41\x7d"⟩).isValid = false := by
  refine ⟨?_, ?_, ?_, by decide, by decide⟩
  · intro row a b ha hb
    have hbd : b.den ≠ 0 := Nat.pos_iff_ne_zero.mp (base_cpm_den_pos _ _ _ _ hb)
    have had : a.den ≠ 0 := Nat.pos_iff_ne_zero.mp (extract_cpm_den_pos _ _ ha)
    have hvd : (get_viewability_addon_cpm (pyStrip row.briefPlatformMedia.pyStr)
        (pyStrip row.briefViewabilityGoal.pyStr)).1.den ≠ 0 :=
      Nat.pos_iff_ne_zero.mp (addon_den_pos _ _)
    have hsd : (b.add (get_viewability_addon_cpm (pyStrip row.briefPlatformMedia.pyStr)
        (pyStrip row.briefViewabilityGoal.pyStr)).1).den ≠ 0 := by
      simp only [Dec.add]
      exact Nat.mul_ne_zero hbd hvd
    simp only [validate_bidding_value, ha, hb]
    rw [dec_beq_iff _ _ hsd had, dec_add_toRat _ _ hbd hvd]
  · have h : get_base_cpm "Mobile/Banner" "No" "No" = some (dec 200 2) := by decide
    rw [h]
    simp only [Option.map, dec, Dec.toRat, Option.some.injEq]
    norm_num
  · have h : (get_viewability_addon_cpm "Mobile/Banner" "80%").1 = dec 40 2 := by
      decide
    rw [h]
    simp only [dec, Dec.toRat]
    norm_num

/-- C1 witness: the Mobile/Banner row with an actual CPM of 2.40. -/
theorem cpm_bidding_exactness_witness :
    (validate_bidding_value
      ⟨.s "Mobile/Banner", .s "No", .s "No", .s "80%",
       .s "\x7b\"cpm_bid\": 2.40\x7d"⟩).isValid = true ↔
      (dec 200 2).toRat + (get_viewability_addon_cpm
        (pyStrip (CellVal.s "Mobile/Banner").pyStr)
        (pyStrip (CellVal.s "80%").pyStr)).1.toRat = (dec 240 2).toRat :=
  cpm_bidding_exactness.1
    ⟨.s "Mobile/Banner", .s "No", .s "No", .s "80%",
     .s "\x7b\"cpm_bid\": 2.40\x7d"⟩ (dec 240 2) (dec 200 2) (by decide) (by decide)

/-! ## `targeting_general.py`: budget split computation and validation -/

/-- Whether a merged row counts as mobile for the budget grouping
(`merged_df[col].str.contains('mobile', case=False, na=False)`). -/
def isMobileRow (platformMedia : CellVal) : Bool :=
  match platformMedia with
  | .s v => strContains (pyLower v) "mobile"
  | _ => false

/-- Sum of exact decimals (Python `sum`). -/
def sumDec (l : List Dec) : Dec := l.foldl Dec.add (Dec.ofInt 0)

/-- Embeds the Budget Split % pre-calculation of `main`
(`targeting_general.py`, budget grouping block): one formatted split
string per row of an alternate-campaign-id group.  `briefImpsFound` is
whether a brief impressions figure was found for the group. -/
def computeBudgetSplits (budgets : List (Option Dec)) (isMobileGroup : Bool)
    (briefImpsFound : Bool) : List String :=
  if !briefImpsFound then budgets.map (fun _ => "Error")
  else if isMobileGroup then
    let total := sumDec (budgets.filterMap id)
    if (Dec.ofInt 0).blt total then
      budgets.map (fun b =>
        match b with
        | some rowBudget => formatFix1 ((rowBudget.div total).mul (Dec.ofInt 100)) ++ "%"
        | none => formatFix1 (Dec.ofInt 0) ++ "%")
    else budgets.map (fun _ => "Error: Zero Total")
  else budgets.map (fun _ => "100%")

/-- Python `s.rstrip(c)` for a single-character set. -/
def strRStripChar (s : String) (c : Char) : String :=
  String.mk (s.data.reverse.dropWhile (fun d => d = c)).reverse

/-- Python `s.endswith(pat)`. -/
def strEnds (hay pat : String) : Bool :=
  pat.data.reverse.isPrefixOf hay.data.reverse

/-- The split-value collection loop of `apply_formatting`
(`targeting_general.py`): keep the numeric value of every cell that ends
in `%` and parses as a float. -/
def parseSplits (splits : List String) : List Dec :=
  splits.filterMap (fun sv0 =>
    let sv := pyStrip sv0
    if strEnds sv "%" then pyFloat (strRStripChar sv (Char.ofNat 37)) else none)

/-- Embeds the Budget Split % group validation of `apply_formatting`
(`targeting_general.py`): the parsed splits must sum to 100 within 0.2,
and for an LDA-compliant group each split must be within 0.2 of 50 or of
100. -/
def validateGroupSplits (splits : List String) (ldaCompliant : String) : Bool :=
  let vals := parseSplits splits
  let validSum :=
    if vals.length = 1 then
      ((vals.headD (Dec.ofInt 0)).sub (Dec.ofInt 100)).abs.blt (dec 2 1)
    else ((sumDec vals).sub (Dec.ofInt 100)).abs.blt (dec 2 1)
  if pyLower (pyStrip ldaCompliant) = "yes" then
    validSum && vals.all (fun v =>
      (v.sub (Dec.ofInt 50)).abs.blt (dec 2 1) ||
      (v.sub (Dec.ofInt 100)).abs.blt (dec 2 1))
  else validSum

/-- C2 counterexample: eight mobile line items with budgets 1256 ×7 and
1208 (total 10000).  Every split is computed correctly by the engine
(12.56% ×7 and 12.08%, formatted to one decimal), yet the one-decimal
formatting pushes the re-parsed sum to 100.3, outside the 0.2 tolerance,
so the budget-split validation marks the group invalid — contradicting
the claimed closure property. -/
theorem budget_split_closure_counterexample :
    computeBudgetSplits
      [some (Dec.ofInt 1256), some (Dec.ofInt 1256), some (Dec.ofInt 1256),
       some (Dec.ofInt 1256), some (Dec.ofInt 1256), some (Dec.ofInt 1256),
       some (Dec.ofInt 1256), some (Dec.ofInt 1208)] true true =
      ["12.6%", "12.6%", "12.6%", "12.6%", "12.6%", "12.6%", "12.6%", "12.1%"] ∧
    validateGroupSplits
      ["12.6%", "12.6%", "12.6%", "12.6%", "12.6%", "12.6%", "12.6%", "12.1%"]
      "No" = false := by
  constructor
  · decide
  · decide

/-- Subtraction of exact decimals interprets as rational subtraction. -/
theorem dec_sub_toRat (a b : Dec) (ha : a.den ≠ 0) (hb : b.den ≠ 0) :
    (a.sub b).toRat = a.toRat - b.toRat := by
  have h := dec_add_toRat a b.neg ha hb
  unfold Dec.sub
  rw [h]
  unfold Dec.neg Dec.toRat
  push_cast
  ring

/-- Multiplication of exact decimals interprets as rational
multiplication. -/
theorem dec_mul_toRat (a b : Dec) :
    (a.mul b).toRat = a.toRat * b.toRat := by
  unfold Dec.mul Dec.toRat
  push_cast
  rw [div_mul_div_comm]

/-- Division of exact decimals interprets as rational division. -/
theorem dec_div_toRat (a b : Dec) (hb : b.num ≠ 0) :
    (a.div b).toRat = a.toRat / b.toRat := by
  unfold Dec.div Dec.toRat
  rcases lt_trichotomy b.num 0 with h | h | h
  · rw [if_neg (by omega)]
    have habs : ((b.num.natAbs : Rat)) = -(b.num : Rat) := by
      rw [Int.cast_natAbs]
      exact_mod_cast abs_of_neg h
    push_cast
    rw [habs]
    by_cases hbd : (b.den : Rat) = 0
    · simp [hbd]
    · have hbn : (b.num : Rat) ≠ 0 := by exact_mod_cast hb
      field_simp
  · exact absurd h hb
  · rw [if_pos (by omega)]
    have habs : ((b.num.natAbs : Rat)) = (b.num : Rat) := by
      rw [Int.cast_natAbs]
      exact_mod_cast abs_of_pos h
    push_cast
    rw [habs]
    by_cases hbd : (b.den : Rat) = 0
    · simp [hbd]
    · have hbn : (b.num : Rat) ≠ 0 := by exact_mod_cast hb
      field_simp

/-- Absolute value of exact decimals interprets as rational absolute
value. -/
theorem dec_abs_toRat (a : Dec) : a.abs.toRat = |a.toRat| := by
  unfold Dec.abs Dec.toRat
  rw [abs_div]
  have h1 : ((a.num.natAbs : Int) : Rat) = |(a.num : Rat)| := by
    have h2 : ((a.num.natAbs : Int)) = |a.num| := (Int.abs_eq_natAbs a.num).symm
    calc ((a.num.natAbs : Int) : Rat) = ((|a.num| : Int) : Rat) := by rw [h2]
      _ = |(a.num : Rat)| := by push_cast; rfl
  rw [h1, abs_of_nonneg (α := Rat) (by positivity : (0 : Rat) ≤ (a.den : Rat))]

/-- Strict comparison of exact decimals interprets as rational order. -/
theorem dec_blt_iff (a b : Dec) (ha : a.den ≠ 0) (hb : b.den ≠ 0) :
    a.blt b = true ↔ a.toRat < b.toRat := by
  have ha2 : (0 : Rat) < (a.den : Rat) := by positivity
  have hb2 : (0 : Rat) < (b.den : Rat) := by positivity
  unfold Dec.blt Dec.toRat
  rw [decide_eq_true_eq, div_lt_div_iff₀ ha2 hb2]
  constructor <;> intro h <;> exact_mod_cast h

/-- Folding `Dec.add` keeps the denominator nonzero. -/
theorem foldl_add_den_ne (l : List Dec) : ∀ acc : Dec, acc.den ≠ 0 →
    (∀ v ∈ l, v.den ≠ 0) → (l.foldl Dec.add acc).den ≠ 0 := by
  induction l with
  | nil => intro acc hacc _; simpa using hacc
  | cons x xs ih =>
    intro acc hacc h
    simp only [List.foldl_cons]
    exact ih (acc.add x)
      (by simpa [Dec.add] using
        Nat.mul_ne_zero hacc (h x (by simp)))
      (fun v hv => h v (by simp [hv]))

/-- Folding `Dec.add` interprets as rational summation. -/
theorem foldl_add_toRat (l : List Dec) : ∀ acc : Dec, acc.den ≠ 0 →
    (∀ v ∈ l, v.den ≠ 0) →
    (l.foldl Dec.add acc).toRat = acc.toRat + (l.map Dec.toRat).sum := by
  induction l with
  | nil => intro acc _ _; simp
  | cons x xs ih =>
    intro acc hacc h
    have hx : x.den ≠ 0 := h x (by simp)
    simp only [List.foldl_cons, List.map_cons, List.sum_cons]
    rw [ih (acc.add x)
        (by simpa [Dec.add] using Nat.mul_ne_zero hacc hx)
        (fun v hv => h v (by simp [hv])),
      dec_add_toRat _ _ hacc hx]
    ring

/-- Denominator of a sum of exact decimals. -/
theorem sumDec_den_ne (l : List Dec) (h : ∀ v ∈ l, v.den ≠ 0) :
    (sumDec l).den ≠ 0 :=
  foldl_add_den_ne l (Dec.ofInt 0) (by simp [Dec.ofInt]) h

/-- A sum of exact decimals interprets as the rational sum. -/
theorem sumDec_toRat (l : List Dec) (h : ∀ v ∈ l, v.den ≠ 0) :
    (sumDec l).toRat = (l.map Dec.toRat).sum := by
  have hf := foldl_add_toRat l (Dec.ofInt 0) (by simp [Dec.ofInt]) h
  simpa [sumDec, Dec.ofInt, Dec.toRat] using hf

/-- Reading back an appended digit character. -/
theorem digitsToNat_append (xs : List Char) (c : Char) :
    digitsToNat (xs ++ [c]) = digitsToNat xs * 10 + (c.toNat - 48) := by
  simp [digitsToNat, List.foldl_append]

/-- The decimal digit characters used by the renderer. -/
theorem digitChar_spec (d : Nat) (h : d < 10) :
    (Char.ofNat (48 + d)).toNat = 48 + d ∧
    (Char.ofNat (48 + d)).isDigit = true := by
  interval_cases d <;> exact ⟨by decide, by decide⟩

/-- Correctness of the fuel-driven digit renderer: with enough fuel it
prints standard decimal digits that read back to the input. -/
theorem natDecDigits_spec : ∀ f n, n < 10 ^ (f + 1) →
    digitsToNat (natDecDigits (f + 1) n) = n ∧
    (natDecDigits (f + 1) n).all (fun c => c.isDigit) = true ∧
    natDecDigits (f + 1) n ≠ [] := by
  intro f
  induction f with
  | zero =>
    intro n hn
    have h10 : n < 10 := by simpa using hn
    have hstep : natDecDigits 1 n = [Char.ofNat (48 + n)] := by
      conv_lhs => rw [natDecDigits]
      rw [if_pos h10]
    refine ⟨?_, ?_, by rw [hstep]; simp⟩
    · rw [hstep]
      simp [digitsToNat, (digitChar_spec n h10).1]
    · rw [hstep]
      simp [(digitChar_spec n h10).2]
  | succ f ih =>
    intro n hn
    by_cases h10 : n < 10
    · have hstep : natDecDigits (f + 1 + 1) n = [Char.ofNat (48 + n)] := by
        conv_lhs => rw [natDecDigits]
        rw [if_pos h10]
      refine ⟨?_, ?_, by rw [hstep]; simp⟩
      · rw [hstep]
        simp [digitsToNat, (digitChar_spec n h10).1]
      · rw [hstep]
        simp [(digitChar_spec n h10).2]
    · have hdiv : n / 10 < 10 ^ (f + 1) := by
        rw [Nat.div_lt_iff_lt_mul (by norm_num)]
        calc n < 10 ^ (f + 1 + 1) := hn
          _ = 10 ^ (f + 1) * 10 := by ring
      obtain ⟨ih1, ih2, ih3⟩ := ih (n / 10) hdiv
      have hm : n % 10 < 10 := Nat.mod_lt _ (by norm_num)
      have hstep : natDecDigits (f + 1 + 1) n =
          natDecDigits (f + 1) (n / 10) ++ [Char.ofNat (48 + n % 10)] := by
        conv_lhs => rw [natDecDigits]
        rw [if_neg h10]
      refine ⟨?_, ?_, ?_⟩
      · rw [hstep, digitsToNat_append, ih1, (digitChar_spec _ hm).1]
        omega
      · rw [hstep, List.all_append]
        simp [ih2, (digitChar_spec _ hm).2]
      · rw [hstep]
        simp

/-- Correctness of `natDecStr`. -/
theorem natDecStr_spec (n : Nat) :
    digitsToNat (natDecStr n).data = n ∧
    (natDecStr n).data.all (fun c => c.isDigit) = true ∧
    (natDecStr n).data ≠ [] := by
  have h1 : n < 2 ^ n := Nat.lt_two_pow n
  have h2 : 2 ^ n ≤ 10 ^ n := Nat.pow_le_pow_left (by norm_num) n
  have h3 : 10 ^ n ≤ 10 ^ (n + 1) := Nat.pow_le_pow_right (by norm_num) (by omega)
  exact natDecDigits_spec n n (by omega)

/-- A whitespace character is not a digit. -/
theorem space_not_digit (c : Char) (h : isPySpace c = true) :
    c.isDigit = false := by
  simp only [isPySpace, Bool.or_eq_true, decide_eq_true_eq] at h
  rcases h with ((((rfl | rfl) | rfl) | rfl) | rfl) | rfl <;> decide

/-- `dropWhile` is the identity when the head fails the test. -/
theorem dropWhile_eq_self_of_head (p : Char → Bool) :
    ∀ l : List Char, (∀ c ∈ l.head?, p c = false) → l.dropWhile p = l := by
  intro l h
  cases l with
  | nil => rfl
  | cons c cs =>
    have := h c (by simp)
    simp [List.dropWhile_cons, this]

/-- Stripping a list of non-whitespace characters is the identity. -/
theorem pyStripList_eq_self (l : List Char)
    (h : ∀ c ∈ l, isPySpace c = false) : pyStripList l = l := by
  unfold pyStripList
  rw [dropWhile_eq_self_of_head _ l
      (fun c hc => h c (List.mem_of_mem_head? hc)),
    dropWhile_eq_self_of_head _ l.reverse
      (fun c hc => h c (by
        have := List.mem_of_mem_head? hc
        simpa using this)),
    List.reverse_reverse]

/-- `takeWhile` passes over a fully satisfying left part. -/
theorem takeWhile_append_all (p : Char → Bool) :
    ∀ (l1 l2 : List Char), l1.all p = true →
      (l1 ++ l2).takeWhile p = l1 ++ l2.takeWhile p := by
  intro l1
  induction l1 with
  | nil => intro l2 _; simp
  | cons c cs ih =>
    intro l2 h
    simp only [List.all_cons, Bool.and_eq_true] at h
    simp [List.takeWhile_cons, h.1, ih l2 h.2]

/-- `dropWhile` removes a fully satisfying left part. -/
theorem dropWhile_append_all (p : Char → Bool) :
    ∀ (l1 l2 : List Char), l1.all p = true →
      (l1 ++ l2).dropWhile p = l2.dropWhile p := by
  intro l1
  induction l1 with
  | nil => intro l2 _; simp
  | cons c cs ih =>
    intro l2 h
    simp only [List.all_cons, Bool.and_eq_true] at h
    simp [List.dropWhile_cons, h.1, ih l2 h.2]

/-- Digit characters are none of the parser's special characters. -/
theorem digit_resists (c : Char) (h : c.isDigit = true) :
    c ≠ '-' ∧ c ≠ '+' ∧ c ≠ '.' ∧ c ≠ Char.ofNat 37 ∧ isPySpace c = false := by
  refine ⟨?_, ?_, ?_, ?_, ?_⟩
  · intro h2; rw [h2] at h; exact absurd h (by decide)
  · intro h2; rw [h2] at h; exact absurd h (by decide)
  · intro h2; rw [h2] at h; exact absurd h (by decide)
  · intro h2; rw [h2] at h; exact absurd h (by decide)
  · cases hs : isPySpace c
    · rfl
    · rw [space_not_digit c hs] at h; cases h

/-- `natDecStr` of a single digit. -/
theorem natDecStr_small (d : Nat) (h : d < 10) :
    (natDecStr d).data = [Char.ofNat (48 + d)] := by
  have hstep : natDecDigits (d + 1) d = [Char.ofNat (48 + d)] := by
    conv_lhs => rw [natDecDigits]
    rw [if_pos h]
  simp [natDecStr, hstep]

/-- The digit parser reads back a digits-dot-digit body. -/
theorem pyFloatCore_digits (A B : List Char)
    (hA2 : A.all (fun c => c.isDigit) = true) (hA3 : A ≠ [])
    (hB : B.all (fun c => c.isDigit) = true) :
    pyFloatCore 1 (A ++ '.' :: B) =
      some ⟨(digitsToNat A : Int) * 10 ^ B.length + (digitsToNat B : Int),
        10 ^ B.length⟩ := by
  simp only [pyFloatCore]
  rw [takeWhile_append_all _ _ _ hA2, dropWhile_append_all _ _ _ hA2]
  have ht1 : ('.' :: B).takeWhile (fun c => c.isDigit) = [] := by
    rw [List.takeWhile_cons]
    simp
  have ht2 : ('.' :: B).dropWhile (fun c => c.isDigit) = '.' :: B := by
    rw [List.dropWhile_cons]
    simp
  rw [ht1, ht2]
  have hAe : A.isEmpty = false := by
    cases A with
    | nil => exact absurd rfl hA3
    | cons c cs => rfl
  simp [hB, hAe]

/-- Shape of a formatted non-negative one-decimal value: integer digits,
a dot, one fractional digit. -/
theorem formatFix1_data (x : Dec)
    (hx : 0 ≤ roundHalfEven (x.mul (Dec.ofInt 10))) :
    (formatFix1 x).data =
      (natDecStr ((roundHalfEven (x.mul (Dec.ofInt 10))).natAbs / 10)).data ++
      '.' :: (natDecStr ((roundHalfEven (x.mul (Dec.ofInt 10))).natAbs % 10)).data := by
  set t := roundHalfEven (x.mul (Dec.ofInt 10)) with ht
  set n := t.natAbs with hn
  simp only [formatFix1]
  rw [← ht, if_neg (by omega)]
  rw [show ("" : String) ++ natDecStr (t.natAbs / 10) ++ "." ++
      natDecStr (t.natAbs % 10) =
      natDecStr (t.natAbs / 10) ++ "." ++ natDecStr (t.natAbs % 10) by
    simp]
  rw [String.data_append, String.data_append]
  simp [← hn]

/-- No character of a formatted non-negative value is whitespace. -/
theorem formatFix1_nospace (x : Dec)
    (hx : 0 ≤ roundHalfEven (x.mul (Dec.ofInt 10))) :
    ∀ c ∈ (formatFix1 x).data, isPySpace c = false := by
  set t := roundHalfEven (x.mul (Dec.ofInt 10)) with ht
  set n := t.natAbs with hn
  obtain ⟨hA1, hA2, hA3⟩ := natDecStr_spec (n / 10)
  have hm10 : n % 10 < 10 := Nat.mod_lt _ (by norm_num)
  have hBdef : (natDecStr (n % 10)).data = [Char.ofNat (48 + n % 10)] :=
    natDecStr_small _ hm10
  have hB2 : (natDecStr (n % 10)).data.all (fun c => c.isDigit) = true := by
    rw [hBdef]
    simp [(digitChar_spec _ hm10).2]
  rw [formatFix1_data x hx]
  intro c hc
  rcases List.mem_append.mp hc with hc | hc
  · exact (digit_resists c (List.all_eq_true.mp hA2 c hc)).2.2.2.2
  · rcases List.mem_cons.mp hc with rfl | hc
    · decide
    · exact (digit_resists c (List.all_eq_true.mp hB2 c hc)).2.2.2.2

/-- Parsing back a one-decimal formatted non-negative value recovers the
rounded tenths exactly. -/
theorem pyFloat_formatFix1 (x : Dec)
    (hx : 0 ≤ roundHalfEven (x.mul (Dec.ofInt 10))) :
    pyFloat (formatFix1 x) =
      some ⟨roundHalfEven (x.mul (Dec.ofInt 10)), 10⟩ := by
  set t := roundHalfEven (x.mul (Dec.ofInt 10)) with ht
  set n := t.natAbs with hn
  obtain ⟨hA1, hA2, hA3⟩ := natDecStr_spec (n / 10)
  have hm10 : n % 10 < 10 := Nat.mod_lt _ (by norm_num)
  have hBdef : (natDecStr (n % 10)).data = [Char.ofNat (48 + n % 10)] :=
    natDecStr_small _ hm10
  have hB2 : (natDecStr (n % 10)).data.all (fun c => c.isDigit) = true := by
    rw [hBdef]
    simp [(digitChar_spec _ hm10).2]
  have hfmt : (formatFix1 x).data =
      (natDecStr (n / 10)).data ++ '.' :: (natDecStr (n % 10)).data :=
    formatFix1_data x hx
  have hnospace : ∀ c ∈ (natDecStr (n / 10)).data ++
      '.' :: (natDecStr (n % 10)).data, isPySpace c = false := by
    intro c hc
    rcases List.mem_append.mp hc with hc | hc
    · exact (digit_resists c (List.all_eq_true.mp hA2 c hc)).2.2.2.2
    · rcases List.mem_cons.mp hc with rfl | hc
      · decide
      · exact (digit_resists c (List.all_eq_true.mp hB2 c hc)).2.2.2.2
  have hstrip : pyStripList (formatFix1 x).data =
      (natDecStr (n / 10)).data ++ '.' :: (natDecStr (n % 10)).data := by
    rw [hfmt]
    exact pyStripList_eq_self _ hnospace
  have hcore := pyFloatCore_digits (natDecStr (n / 10)).data
    (natDecStr (n % 10)).data hA2 hA3 hB2
  have hval : pyFloatCore 1 ((natDecStr (n / 10)).data ++
      '.' :: (natDecStr (n % 10)).data) = some ⟨t, 10⟩ := by
    rw [hcore, hA1, hBdef]
    have hc1 : (Char.ofNat (48 + n % 10)).toNat = 48 + n % 10 :=
      (digitChar_spec _ hm10).1
    have hdB : digitsToNat [Char.ofNat (48 + n % 10)] = n % 10 := by
      simp [digitsToNat, hc1]
    simp only [hdB, List.length_singleton, pow_one, Option.some.injEq,
      Dec.mk.injEq]
    constructor
    · omega
    · norm_num
  obtain ⟨a0, A', hA⟩ : ∃ a0 A', (natDecStr (n / 10)).data = a0 :: A' := by
    cases hAc : (natDecStr (n / 10)).data with
    | nil => exact absurd hAc hA3
    | cons a0 A' => exact ⟨a0, A', rfl⟩
  have ha0 : a0.isDigit = true := by
    apply List.all_eq_true.mp hA2
    rw [hA]
    simp
  unfold pyFloat
  rw [hstrip, hA, List.cons_append]
  simp only [pyFloatAux]
  rw [if_neg (by
      intro h2
      exact absurd h2 ((digit_resists a0 ha0).1)),
    if_neg (by
      intro h2
      exact absurd h2 ((digit_resists a0 ha0).2.1))]
  rw [← List.cons_append, ← hA]
  exact hval

/-- The exact-decimal floor agrees with the rational floor. -/
theorem floorD_eq_floor (a : Dec) : a.floorD = ⌊a.toRat⌋ := by
  unfold Dec.floorD Dec.toRat
  rw [Int.fdiv_eq_ediv _ (by positivity)]
  exact (Rat.floor_intCast_div_natCast a.num a.den).symm

/-- Half-to-even rounding moves a value by at most one half. -/
theorem rhe_bound (y : Dec) (h : y.den ≠ 0) :
    |((roundHalfEven y : Int) : Rat) - y.toRat| ≤ 1 / 2 := by
  simp only [roundHalfEven]
  have hf : y.floorD = ⌊y.toRat⌋ := floorD_eq_floor y
  have hfl : ((⌊y.toRat⌋ : Int) : Rat) ≤ y.toRat := Int.floor_le _
  have hfu : y.toRat < ⌊y.toRat⌋ + 1 := Int.lt_floor_add_one _
  have hfden : (y.sub (Dec.ofInt y.floorD)).den ≠ 0 := by
    simpa [Dec.sub, Dec.add, Dec.neg, Dec.ofInt] using h
  have hfracR : (y.sub (Dec.ofInt y.floorD)).toRat =
      y.toRat - ((⌊y.toRat⌋ : Int) : Rat) := by
    rw [dec_sub_toRat y _ h (by simp [Dec.ofInt])]
    simp [Dec.ofInt, Dec.toRat, hf]
  have hhalfden : (dec 5 1).den ≠ 0 := by norm_num [dec]
  have hhalf : (dec 5 1).toRat = 1 / 2 := by norm_num [dec, Dec.toRat]
  by_cases h1 : (y.sub (Dec.ofInt y.floorD)).blt (dec 5 1) = true
  · rw [if_pos h1]
    have hlt := (dec_blt_iff _ _ hfden hhalfden).mp h1
    rw [hfracR, hhalf] at hlt
    rw [hf, abs_le]
    constructor <;> linarith
  · rw [if_neg h1]
    have hge : ¬(y.sub (Dec.ofInt y.floorD)).toRat < (dec 5 1).toRat :=
      fun hh => h1 ((dec_blt_iff _ _ hfden hhalfden).mpr hh)
    rw [hfracR, hhalf, not_lt] at hge
    by_cases h2 : (dec 5 1).blt (y.sub (Dec.ofInt y.floorD)) = true
    · rw [if_pos h2]
      have hlt := (dec_blt_iff _ _ hhalfden hfden).mp h2
      rw [hfracR, hhalf] at hlt
      rw [hf, abs_le]
      push_cast
      constructor <;> linarith
    · rw [if_neg h2]
      have hle : ¬(dec 5 1).toRat < (y.sub (Dec.ofInt y.floorD)).toRat :=
        fun hh => h2 ((dec_blt_iff _ _ hhalfden hfden).mpr hh)
      rw [hfracR, hhalf, not_lt] at hle
      have heq : y.toRat - ((⌊y.toRat⌋ : Int) : Rat) = 1 / 2 :=
        le_antisymm hle hge
      by_cases h3 : y.floorD % 2 = 0
      · rw [if_pos h3, hf, abs_le]
        constructor <;> linarith
      · rw [if_neg h3, hf, abs_le]
        push_cast
        constructor <;> linarith

/-- The parsed-back one-decimal value is within 1/20 of the original. -/
theorem tenth_close (x : Dec) (hx : x.den ≠ 0) :
    |(Dec.toRat ⟨roundHalfEven (x.mul (Dec.ofInt 10)), 10⟩) - x.toRat| ≤
      1 / 20 := by
  have hden : (x.mul (Dec.ofInt 10)).den ≠ 0 := by
    simpa [Dec.mul, Dec.ofInt] using hx
  have hb := rhe_bound (x.mul (Dec.ofInt 10)) hden
  have hmul : (x.mul (Dec.ofInt 10)).toRat = x.toRat * 10 := by
    rw [dec_mul_toRat]
    norm_num [Dec.ofInt, Dec.toRat]
  rw [hmul] at hb
  set t := roundHalfEven (x.mul (Dec.ofInt 10)) with ht
  have hval : Dec.toRat ⟨t, 10⟩ = ((t : Int) : Rat) / 10 := by
    simp [Dec.toRat]
  rw [hval]
  have hrw : ((t : Int) : Rat) / 10 - x.toRat =
      (((t : Int) : Rat) - x.toRat * 10) / 10 := by ring
  rw [hrw, abs_div]
  rw [abs_of_pos (by norm_num : (0 : Rat) < 10)]
  linarith

/-- Every parsed split value has a nonzero denominator. -/
theorem parseSplits_den_ne (splits : List String) :
    ∀ v ∈ parseSplits splits, v.den ≠ 0 := by
  intro v hv
  simp only [parseSplits, List.mem_filterMap] at hv
  obtain ⟨s, hs, heq⟩ := hv
  by_cases he : strEnds (pyStrip s) "%" = true
  · rw [if_pos he] at heq
    exact Nat.pos_iff_ne_zero.mp (pyFloat_den_pos _ _ heq)
  · rw [if_neg he] at heq
    cases heq

/-- Appending the percent sign and stripping it back is the identity on a
formatted value. -/
theorem rstrip_format (x : Dec)
    (hx : 0 ≤ roundHalfEven (x.mul (Dec.ofInt 10))) :
    strRStripChar (formatFix1 x ++ "%") (Char.ofNat 37) = formatFix1 x := by
  set t := roundHalfEven (x.mul (Dec.ofInt 10)) with ht
  set n := t.natAbs with hn
  have hm10 : n % 10 < 10 := Nat.mod_lt _ (by norm_num)
  have hBdef : (natDecStr (n % 10)).data = [Char.ofNat (48 + n % 10)] :=
    natDecStr_small _ hm10
  have hfd := formatFix1_data x hx
  rw [← ht, ← hn] at hfd
  unfold strRStripChar
  rw [String.data_append]
  have hrev : ((formatFix1 x).data ++ ("%".data)).reverse =
      Char.ofNat 37 :: (formatFix1 x).data.reverse := by
    rw [List.reverse_append]
    rfl
  rw [hrev, List.dropWhile_cons]
  rw [if_pos (by decide)]
  have hrev2 : (formatFix1 x).data.reverse =
      Char.ofNat (48 + n % 10) :: '.' ::
        (natDecStr (n / 10)).data.reverse := by
    rw [hfd, hBdef]
    simp
  have hdigit : (Char.ofNat (48 + n % 10)).isDigit = true :=
    (digitChar_spec _ hm10).2
  have hdrop : (formatFix1 x).data.reverse.dropWhile
      (fun d => d = Char.ofNat 37) = (formatFix1 x).data.reverse := by
    apply dropWhile_eq_self_of_head
    intro c hc
    rw [hrev2] at hc
    simp only [List.head?_cons, Option.mem_def, Option.some.injEq] at hc
    subst hc
    simp only [decide_eq_false_iff_not]
    exact (digit_resists _ hdigit).2.2.2.1
  rw [hdrop, List.reverse_reverse]

/-- Parsing the engine's formatted split strings recovers exactly the
rounded tenths of each split. -/
theorem parseSplits_format (xs : List Dec)
    (h : ∀ x ∈ xs, 0 ≤ roundHalfEven (x.mul (Dec.ofInt 10))) :
    parseSplits (xs.map (fun x => formatFix1 x ++ "%")) =
      xs.map (fun x => ⟨roundHalfEven (x.mul (Dec.ofInt 10)), 10⟩) := by
  induction xs with
  | nil => rfl
  | cons x xs ih =>
    have hx := h x (by simp)
    have hnosp : ∀ c ∈ (formatFix1 x ++ "%").data, isPySpace c = false := by
      rw [String.data_append]
      intro c hc
      rcases List.mem_append.mp hc with hc | hc
      · exact formatFix1_nospace x hx c hc
      · have : c = Char.ofNat 37 := by simpa using hc
        subst this
        decide
    have hstrip : pyStrip (formatFix1 x ++ "%") = formatFix1 x ++ "%" := by
      unfold pyStrip
      rw [pyStripList_eq_self _ hnosp]
    have hends : strEnds (formatFix1 x ++ "%") "%" = true := by
      unfold strEnds
      rw [String.data_append, List.reverse_append]
      have hp : ("%".data).reverse = [Char.ofNat 37] := by decide
      rw [hp]
      simp [List.isPrefixOf]
    simp only [List.map_cons, parseSplits, List.filterMap_cons]
    rw [hstrip]
    rw [if_pos hends, rstrip_format x hx, pyFloat_formatFix1 x hx]
    simp only [parseSplits, List.map_cons] at ih ⊢
    rw [ih (fun v hv => h v (by simp [hv]))]

/-- The 0.2-tolerance nearness test, read rationally. -/
theorem near_blt_iff (v : Dec) (hv : v.den ≠ 0) (t : Int) :
    ((v.sub (Dec.ofInt t)).abs.blt (dec 2 1) = true) ↔
      |v.toRat - (t : Rat)| < 1 / 5 := by
  have hd1 : (v.sub (Dec.ofInt t)).abs.den ≠ 0 := by
    simpa [Dec.abs, Dec.sub, Dec.add, Dec.neg, Dec.ofInt] using hv
  have hd2 : (dec 2 1).den ≠ 0 := by norm_num [dec]
  rw [dec_blt_iff _ _ hd1 hd2, dec_abs_toRat,
    dec_sub_toRat v _ hv (by simp [Dec.ofInt])]
  have h1 : (Dec.ofInt t).toRat = (t : Rat) := by simp [Dec.ofInt, Dec.toRat]
  have h2 : (dec 2 1).toRat = 1 / 5 := by norm_num [dec, Dec.toRat]
  rw [h1, h2]

/-- The budget-split group validator, characterized over rational values:
the parsed splits must sum to within 0.2 of 100, and under LDA every
parsed split must be within 0.2 of 50 or of 100. -/
theorem validator_iff (splits : List String) (lda : String) :
    validateGroupSplits splits lda = true ↔
      (|((parseSplits splits).map Dec.toRat).sum - 100| < 1 / 5 ∧
       (pyLower (pyStrip lda) = "yes" →
         ∀ v ∈ parseSplits splits,
           |v.toRat - 50| < 1 / 5 ∨ |v.toRat - 100| < 1 / 5)) := by
  have hden := parseSplits_den_ne splits
  have hsum_iff : (if (parseSplits splits).length = 1 then
      ((parseSplits splits).headD (Dec.ofInt 0)).sub (Dec.ofInt 100)
        |>.abs.blt (dec 2 1)
      else ((sumDec (parseSplits splits)).sub (Dec.ofInt 100)).abs.blt
        (dec 2 1)) = true
      ↔ |((parseSplits splits).map Dec.toRat).sum - 100| < 1 / 5 := by
    by_cases hl : (parseSplits splits).length = 1
    · obtain ⟨v, hv⟩ := List.length_eq_one.mp hl
      have hvd : v.den ≠ 0 := hden v (by rw [hv]; simp)
      rw [if_pos hl, hv]
      simp only [List.headD_cons, List.map_cons, List.map_nil,
        List.sum_cons, List.sum_nil, add_zero]
      rw [near_blt_iff v hvd 100]
      norm_num
    · rw [if_neg hl]
      rw [near_blt_iff _ (sumDec_den_ne _ hden) 100,
        sumDec_toRat _ hden]
      norm_num
  unfold validateGroupSplits
  by_cases hlda : pyLower (pyStrip lda) = "yes"
  · rw [if_pos hlda, Bool.and_eq_true, hsum_iff, List.all_eq_true]
    constructor
    · rintro ⟨h1, h2⟩
      refine ⟨h1, fun _ v hv => ?_⟩
      have := h2 v hv
      rw [Bool.or_eq_true, near_blt_iff v (hden v hv) 50,
        near_blt_iff v (hden v hv) 100] at this
      simpa using this
    · rintro ⟨h1, h2⟩
      refine ⟨h1, fun v hv => ?_⟩
      rw [Bool.or_eq_true, near_blt_iff v (hden v hv) 50,
        near_blt_iff v (hden v hv) 100]
      simpa using h2 hlda v hv
  · rw [if_neg hlda, hsum_iff]
    simp [hlda]

/-- A positively-valued exact decimal has a positive numerator. -/
theorem dec_num_pos (a : Dec) (hden : a.den ≠ 0) (h : 0 < a.toRat) :
    0 < a.num := by
  by_contra hn
  push_neg at hn
  have h1 : (a.num : Rat) ≤ 0 := by exact_mod_cast hn
  have h2 : (0 : Rat) < (a.den : Rat) := by
    have : 0 < a.den := Nat.pos_of_ne_zero hden
    exact_mod_cast this
  have : a.toRat ≤ 0 := by
    unfold Dec.toRat
    exact div_nonpos_of_nonpos_of_nonneg h1 (le_of_lt h2)
  linarith

/-- Half-to-even rounding of a nonnegative value is nonnegative. -/
theorem rhe_nonneg (y : Dec) (hden : y.den ≠ 0) (h : 0 ≤ y.toRat) :
    0 ≤ roundHalfEven y := by
  have hf : 0 ≤ y.floorD := by
    rw [floorD_eq_floor]
    exact Int.le_floor.mpr (by exact_mod_cast h)
  simp only [roundHalfEven]
  split
  · exact hf
  · split
    · omega
    · split <;> omega

/-- Summing a scaled list of exact-decimal values. -/
theorem sum_map_linear (l : List Dec) (c : Rat) :
    (l.map (fun b => Dec.toRat b * c)).sum = (l.map Dec.toRat).sum * c := by
  induction l with
  | nil => simp
  | cons x xs ih => simp [ih, add_mul]

/-- The summed rounding error over a list of one-decimal re-parsed
values is at most 1/20 per element. -/
theorem map_sum_close (xs : List Dec) (hx : ∀ x ∈ xs, x.den ≠ 0) :
    |(xs.map (fun x =>
        Dec.toRat ⟨roundHalfEven (x.mul (Dec.ofInt 10)), 10⟩)).sum -
      (xs.map Dec.toRat).sum| ≤ (xs.length : Rat) * (1 / 20) := by
  induction xs with
  | nil => simp
  | cons x xs ih =>
    simp only [List.map_cons, List.sum_cons, List.length_cons]
    have h1 := tenth_close x (hx x (by simp))
    have h2 := ih (fun v hv => hx v (by simp [hv]))
    have h3 : |(Dec.toRat ⟨roundHalfEven (x.mul (Dec.ofInt 10)), 10⟩ +
        (xs.map (fun x =>
          Dec.toRat ⟨roundHalfEven (x.mul (Dec.ofInt 10)), 10⟩)).sum) -
        (x.toRat + (xs.map Dec.toRat).sum)| ≤
        |Dec.toRat ⟨roundHalfEven (x.mul (Dec.ofInt 10)), 10⟩ - x.toRat| +
        |(xs.map (fun x =>
          Dec.toRat ⟨roundHalfEven (x.mul (Dec.ofInt 10)), 10⟩)).sum -
          (xs.map Dec.toRat).sum| := by
      have := abs_add
        (Dec.toRat ⟨roundHalfEven (x.mul (Dec.ofInt 10)), 10⟩ - x.toRat)
        ((xs.map (fun x =>
          Dec.toRat ⟨roundHalfEven (x.mul (Dec.ofInt 10)), 10⟩)).sum -
          (xs.map Dec.toRat).sum)
      calc |(Dec.toRat ⟨roundHalfEven (x.mul (Dec.ofInt 10)), 10⟩ +
            (xs.map (fun x =>
              Dec.toRat ⟨roundHalfEven (x.mul (Dec.ofInt 10)), 10⟩)).sum) -
            (x.toRat + (xs.map Dec.toRat).sum)| =
          |(Dec.toRat ⟨roundHalfEven (x.mul (Dec.ofInt 10)), 10⟩ - x.toRat) +
            ((xs.map (fun x =>
              Dec.toRat ⟨roundHalfEven (x.mul (Dec.ofInt 10)), 10⟩)).sum -
              (xs.map Dec.toRat).sum)| := by ring_nf
        _ ≤ _ := this
    push_cast
    calc |(Dec.toRat ⟨roundHalfEven (x.mul (Dec.ofInt 10)), 10⟩ +
          (xs.map (fun x =>
            Dec.toRat ⟨roundHalfEven (x.mul (Dec.ofInt 10)), 10⟩)).sum) -
          (x.toRat + (xs.map Dec.toRat).sum)| ≤ _ := h3
      _ ≤ 1 / 20 + (xs.length : Rat) * (1 / 20) := by
          exact add_le_add h1 h2
      _ ≤ ((xs.length : Rat) + 1) * (1 / 20) := by ring_nf; linarith

/-- The mobile branch of the budget-split computation on all-present
budgets with positive total. -/
theorem computeBudgetSplits_mobile (budgets : List Dec)
    (h : (Dec.ofInt 0).blt (sumDec budgets) = true) :
    computeBudgetSplits (budgets.map some) true true =
      budgets.map (fun b =>
        formatFix1 ((b.div (sumDec budgets)).mul (Dec.ofInt 100)) ++ "%") := by
  have hfm : (budgets.map some).filterMap id = budgets := by
    rw [List.filterMap_map]
    simp
  simp only [computeBudgetSplits, Bool.not_true, Bool.false_eq_true,
    if_false, if_true, hfm, h, List.map_map]
  rfl

/-- Any mobile group of at most three present, nonnegative budgets with
positive total passes the split validation (when LDA does not apply). -/
theorem mobile_small_group_passes (budgets : List Dec) (lda : String)
    (hlen : budgets.length ≤ 3)
    (hden : ∀ b ∈ budgets, b.den ≠ 0)
    (hnn : ∀ b ∈ budgets, 0 ≤ b.toRat)
    (htot : 0 < (sumDec budgets).toRat)
    (hlda : pyLower (pyStrip lda) ≠ "yes") :
    validateGroupSplits (computeBudgetSplits (budgets.map some) true true)
      lda = true := by
  have hTden : (sumDec budgets).den ≠ 0 := sumDec_den_ne _ hden
  have hTnum : 0 < (sumDec budgets).num := dec_num_pos _ hTden htot
  have hblt : (Dec.ofInt 0).blt (sumDec budgets) = true := by
    rw [dec_blt_iff _ _ (by simp [Dec.ofInt]) hTden]
    simpa [Dec.ofInt, Dec.toRat] using htot
  rw [computeBudgetSplits_mobile budgets hblt]
  have hcomp : budgets.map (fun b =>
      formatFix1 ((b.div (sumDec budgets)).mul (Dec.ofInt 100)) ++ "%") =
      (budgets.map (fun b =>
        (b.div (sumDec budgets)).mul (Dec.ofInt 100))).map
        (fun x => formatFix1 x ++ "%") := by
    rw [List.map_map]
    rfl
  have hxden : ∀ x ∈ budgets.map (fun b =>
      (b.div (sumDec budgets)).mul (Dec.ofInt 100)), x.den ≠ 0 := by
    intro x hx
    obtain ⟨b, hb, rfl⟩ := List.mem_map.mp hx
    show ((b.div (sumDec budgets)).mul (Dec.ofInt 100)).den ≠ 0
    unfold Dec.div Dec.mul Dec.ofInt
    rw [if_pos (le_of_lt hTnum)]
    simp only [mul_one]
    exact Nat.mul_ne_zero (hden b hb) (by omega)
  have h100 : (Dec.ofInt 100).toRat = 100 := by
    norm_num [Dec.ofInt, Dec.toRat]
  have hxnn : ∀ x ∈ budgets.map (fun b =>
      (b.div (sumDec budgets)).mul (Dec.ofInt 100)), 0 ≤ x.toRat := by
    intro x hx
    obtain ⟨b, hb, rfl⟩ := List.mem_map.mp hx
    rw [dec_mul_toRat, dec_div_toRat _ _ (by omega), h100]
    have hb0 := hnn b hb
    have := div_nonneg hb0 (le_of_lt htot)
    linarith [mul_nonneg this (by norm_num : (0 : Rat) ≤ 100)]
  have hrhe : ∀ x ∈ budgets.map (fun b =>
      (b.div (sumDec budgets)).mul (Dec.ofInt 100)),
      0 ≤ roundHalfEven (x.mul (Dec.ofInt 10)) := by
    intro x hx
    apply rhe_nonneg
    · have := hxden x hx
      simpa [Dec.mul, Dec.ofInt] using this
    · rw [dec_mul_toRat]
      have h10 : (Dec.ofInt 10).toRat = 10 := by
        norm_num [Dec.ofInt, Dec.toRat]
      rw [h10]
      linarith [mul_nonneg (hxnn x hx) (by norm_num : (0 : Rat) ≤ 10)]
  have hsum100 : ((budgets.map (fun b =>
      (b.div (sumDec budgets)).mul (Dec.ofInt 100))).map Dec.toRat).sum =
      100 := by
    rw [List.map_map]
    have hterm : ∀ b ∈ budgets,
        (Dec.toRat ∘ fun b => (b.div (sumDec budgets)).mul (Dec.ofInt 100))
          b = Dec.toRat b * (100 / (sumDec budgets).toRat) := by
      intro b _
      simp only [Function.comp_apply]
      rw [dec_mul_toRat, dec_div_toRat _ _ (by omega), h100]
      ring
    rw [List.map_congr_left hterm, sum_map_linear budgets
      (100 / (sumDec budgets).toRat)]
    rw [← sumDec_toRat budgets hden]
    field_simp
  rw [hcomp, validator_iff]
  refine ⟨?_, fun hy => absurd hy hlda⟩
  rw [parseSplits_format _ hrhe, List.map_map]
  have hclose := map_sum_close _ hxden
  rw [hsum100] at hclose
  have hlenx : (budgets.map (fun b =>
      (b.div (sumDec budgets)).mul (Dec.ofInt 100))).length =
      budgets.length := List.length_map _ _
  have hlen3 : ((budgets.map (fun b =>
      (b.div (sumDec budgets)).mul (Dec.ofInt 100))).length : Rat) ≤ 3 := by
    rw [hlenx]
    exact_mod_cast hlen
  have hmapeq : (budgets.map (fun b =>
      (b.div (sumDec budgets)).mul (Dec.ofInt 100))).map
        (Dec.toRat ∘ fun x => ⟨roundHalfEven (x.mul (Dec.ofInt 10)), 10⟩) =
      (budgets.map (fun b =>
        (b.div (sumDec budgets)).mul (Dec.ofInt 100))).map
        (fun x => Dec.toRat ⟨roundHalfEven (x.mul (Dec.ofInt 10)), 10⟩) := by
    rfl
  rw [hmapeq]
  have h320 : ((budgets.map (fun b =>
      (b.div (sumDec budgets)).mul (Dec.ofInt 100))).length : Rat) *
      (1 / 20) ≤ 3 / 20 := by
    nlinarith
  have habs := abs_le.mp (le_trans hclose h320)
  rw [abs_lt]
  constructor <;> linarith [habs.1, habs.2]

/-- Non-mobile groups receive the constant "100%" split, which passes
validation exactly when the group has a single member. -/
theorem non_mobile_splits (budgets : List (Option Dec)) (lda : String) :
    computeBudgetSplits budgets false true =
      budgets.map (fun _ => "100%") ∧
    (validateGroupSplits (budgets.map (fun _ => "100%")) lda = true ↔
      budgets.length = 1) := by
  constructor
  · simp [computeBudgetSplits]
  · have hps : parseSplits (budgets.map (fun _ => "100%")) =
        budgets.map (fun _ => (⟨100, 1⟩ : Dec)) := by
      unfold parseSplits
      rw [List.filterMap_map]
      have hfun : ((fun sv0 =>
          let sv := pyStrip sv0
          if strEnds sv "%" then pyFloat (strRStripChar sv (Char.ofNat 37))
          else none) ∘ (fun _ : Option Dec => "100%")) =
          (some ∘ (fun _ : Option Dec => (⟨100, 1⟩ : Dec))) := by
        funext z
        simp only [Function.comp_apply]
        decide
      rw [hfun, List.filterMap_eq_map]
    rw [validator_iff, hps]
    have hmr : (budgets.map (fun _ => (⟨100, 1⟩ : Dec))).map Dec.toRat =
        List.replicate budgets.length (100 : Rat) := by
      rw [List.map_map]
      have : (Dec.toRat ∘ fun _ : Option Dec => (⟨100, 1⟩ : Dec)) =
          (fun _ : Option Dec => (100 : Rat)) := by
        funext z
        simp only [Function.comp_apply]
        norm_num [Dec.toRat]
      rw [this, List.map_const']
    rw [hmr, List.sum_replicate, nsmul_eq_mul]
    constructor
    · rintro ⟨h1, _⟩
      rcases budgets.length.lt_or_ge 2 with h | h
      · interval_cases hl : budgets.length
        · exfalso
          norm_num at h1
        · rfl
      · exfalso
        have hc : (2 : Rat) ≤ (budgets.length : Rat) := by exact_mod_cast h
        have := abs_lt.mp h1
        nlinarith [this.1, this.2]
    · intro h
      rw [h]
      refine ⟨by norm_num, fun _ v hv => ?_⟩
      have hveq : v = (⟨100, 1⟩ : Dec) := by
        obtain ⟨b, _, rfl⟩ := List.mem_map.mp hv
        rfl
      rw [hveq]
      right
      norm_num [Dec.toRat]

/-- C2 (amended): the budget-split validation marks a group valid exactly
when the one-decimal re-parsed split values sum to within 0.2 of 100 and,
for an LDA-compliant group, each re-parsed value is within 0.2 of 50 or of
100; every mobile group of at most three present nonnegative budgets with
positive total passes (each formatted split is within 0.05 of the exact
share, so the total deviation stays below 0.2); non-mobile groups get the
constant "100%" split and pass exactly when the group has one member.
Larger mobile groups can fail even with correctly computed splits, because
each one-decimal split can carry up to 0.05 rounding error. -/
theorem budget_split_validation :
    (∀ (splits : List String) (lda : String),
        validateGroupSplits splits lda = true ↔
          (|((parseSplits splits).map Dec.toRat).sum - 100| < 1 / 5 ∧
           (pyLower (pyStrip lda) = "yes" →
             ∀ v ∈ parseSplits splits,
               |v.toRat - 50| < 1 / 5 ∨ |v.toRat - 100| < 1 / 5))) ∧
    (∀ (budgets : List Dec) (lda : String),
        budgets.length ≤ 3 →
        (∀ b ∈ budgets, b.den ≠ 0) →
        (∀ b ∈ budgets, 0 ≤ b.toRat) →
        0 < (sumDec budgets).toRat →
        pyLower (pyStrip lda) ≠ "yes" →
        validateGroupSplits
          (computeBudgetSplits (budgets.map some) true true) lda = true) ∧
    (∀ (budgets : List (Option Dec)) (lda : String),
        computeBudgetSplits budgets false true =
          budgets.map (fun _ => "100%") ∧
        (validateGroupSplits (budgets.map (fun _ => "100%")) lda = true ↔
          budgets.length = 1)) :=
  ⟨validator_iff, mobile_small_group_passes, non_mobile_splits⟩

/-- Witness for C2: a three-member equal-budget mobile group passes
validation, and a two-member non-mobile group gets "100%" splits that
fail it. -/
theorem budget_split_validation_witness :
    validateGroupSplits
      (computeBudgetSplits
        (([⟨1, 1⟩, ⟨1, 1⟩, ⟨1, 1⟩] : List Dec).map some) true true)
      "No" = true ∧
    computeBudgetSplits [some ⟨5, 1⟩, some ⟨7, 1⟩] false true =
      ["100%", "100%"] ∧
    validateGroupSplits ["100%", "100%"] "No" = false := by
  refine ⟨?_, ?_, ?_⟩
  · exact budget_split_validation.2.1 [⟨1, 1⟩, ⟨1, 1⟩, ⟨1, 1⟩] "No"
      (by decide) (by decide)
      (by intro b hb; fin_cases hb <;> norm_num [Dec.toRat])
      (by norm_num [sumDec, Dec.add, Dec.ofInt, Dec.toRat])
      (by decide)
  · exact (budget_split_validation.2.2 [some ⟨5, 1⟩, some ⟨7, 1⟩] "No").1
  · have h := (budget_split_validation.2.2
      [some ⟨5, 1⟩, some ⟨7, 1⟩] "No").2
    simp only [List.map_cons, List.map_nil] at h
    by_contra hc
    rw [Bool.not_eq_false] at hc
    have := h.mp hc
    simp at this

/-! ## The brief-context merges and their NA sentinels (C3) -/

/-- A row of the brief Target sheet prepared for merging (BVT key plus
the dependent columns it contributes). -/
structure BriefTargetRec where
  key : CellVal
  bvp : CellVal
  platformMedia : CellVal
  impressions : CellVal
deriving Repr, DecidableEq

/-- A row of the brief Placement sheet prepared for merging (BVP key plus
the dependent columns it contributes). -/
structure BriefPlacementRec where
  key : CellVal
  geoRequired : CellVal
  trafficInfo : CellVal
deriving Repr, DecidableEq

/-- `fillna('N/A')` on one cell. -/
def fillnaNA (v : CellVal) : CellVal := if v.isna then CellVal.s "N/A" else v

/-- Embeds the merge section of `name_assign.py` (lines 907-997) for one
QA row: left-merge the Target sheet on the lower-stripped alternative id,
then overwrite `brief_bvp_id` with its `astype(str).strip().lower()`
image, left-merge the Placement sheet on it, and finally
`fillna('N/A')` the three brief columns.  Returns
(brief_bvp_id, brief_platform_media, brief_geo_required). -/
def naMergeRow (targetTbl : List BriefTargetRec)
    (placementTbl : List BriefPlacementRec) (altId : CellVal) :
    CellVal × CellVal × CellVal :=
  let qaKey := pyLower (pyStrip altId.pyStr)
  let tmatch := targetTbl.find?
    (fun r => pyLower (pyStrip r.key.pyStr) == qaKey)
  let bvp0 := match tmatch with
    | some r => r.bvp
    | none => CellVal.na
  let pm0 := match tmatch with
    | some r => r.platformMedia
    | none => CellVal.na
  let bvpKey := pyLower (pyStrip bvp0.pyStr)
  let bvp1 := CellVal.s bvpKey
  let pmatch := placementTbl.find?
    (fun r => pyLower (pyStrip r.key.pyStr) == bvpKey)
  let geo0 := match pmatch with
    | some r => r.geoRequired
    | none => CellVal.na
  (fillnaNA bvp1, fillnaNA pm0, fillnaNA geo0)

/-- Embeds the merge section of `targeting_general.py` (lines 1031-1096)
for one QA row: left-merge the Target sheet on a temporary lower-stripped
key, left-merge the Placement sheet on a temporary lower-stripped image
of `brief_bvp_id` (the column itself is not overwritten), and apply the
final `fillna('N/A')` loop — whose column list contains only the six
campaign-level brief fields, none of the five merge-derived columns.
Returns (brief_bvp_id, brief_platform_media, brief_impressions,
brief_geo_required, brief_traffic_info). -/
def tgMergeRow (targetTbl : List BriefTargetRec)
    (placementTbl : List BriefPlacementRec) (altId : CellVal) :
    CellVal × CellVal × CellVal × CellVal × CellVal :=
  let qaKey := pyLower (pyStrip altId.pyStr)
  let tmatch := targetTbl.find?
    (fun r => pyLower (pyStrip r.key.pyStr) == qaKey)
  let bvp0 := match tmatch with
    | some r => r.bvp
    | none => CellVal.na
  let pm0 := match tmatch with
    | some r => r.platformMedia
    | none => CellVal.na
  let imps0 := match tmatch with
    | some r => r.impressions
    | none => CellVal.na
  let bvpKey := pyLower (pyStrip bvp0.pyStr)
  let pmatch := placementTbl.find?
    (fun r => pyLower (pyStrip r.key.pyStr) == bvpKey)
  let geo0 := match pmatch with
    | some r => r.geoRequired
    | none => CellVal.na
  let traffic0 := match pmatch with
    | some r => r.trafficInfo
    | none => CellVal.na
  (bvp0, pm0, imps0, geo0, traffic0)

/-- C3: on a QA row whose alternative id matches no brief Target record
(and whose derived key "nan" matches no Placement record), the
`name_assign.py` merge leaves `brief_bvp_id` as the string "nan" — the
host language's NaN stringification, produced by `astype(str)` before
`fillna` — not the claimed "N/A"; and the `targeting_general.py` merge
leaves all five dependent brief columns as NaN, since its `fillna('N/A')`
loop never names them.  The claim's sentinel property fails in both
pipelines. -/
theorem merged_sentinel_bug (targetTbl : List BriefTargetRec)
    (placementTbl : List BriefPlacementRec) (altId : CellVal)
    (hT : ∀ r ∈ targetTbl,
      pyLower (pyStrip r.key.pyStr) ≠ pyLower (pyStrip altId.pyStr))
    (hP : ∀ r ∈ placementTbl, pyLower (pyStrip r.key.pyStr) ≠ "nan") :
    naMergeRow targetTbl placementTbl altId =
      (CellVal.s "nan", CellVal.s "N/A", CellVal.s "N/A") ∧
    tgMergeRow targetTbl placementTbl altId =
      (CellVal.na, CellVal.na, CellVal.na, CellVal.na, CellVal.na) := by
  have hnan : pyLower (pyStrip (CellVal.na.pyStr)) = "nan" := by decide
  have htm : targetTbl.find?
      (fun r => pyLower (pyStrip r.key.pyStr) ==
        pyLower (pyStrip altId.pyStr)) = none := by
    rw [List.find?_eq_none]
    intro r hr
    simpa using hT r hr
  have hpm : placementTbl.find?
      (fun r => pyLower (pyStrip r.key.pyStr) == "nan") = none := by
    rw [List.find?_eq_none]
    intro r hr
    simpa using hP r hr
  constructor
  · simp only [naMergeRow, htm, hnan, hpm, fillnaNA, CellVal.isna]
    rfl
  · simp only [tgMergeRow, htm, hnan, hpm]

/-- Witness for C3: a concrete unmatched QA row against one-row Target
and Placement sheets. -/
theorem merged_sentinel_bug_witness :
    naMergeRow
      [⟨CellVal.s "BVT_001", CellVal.s "BVP_9",
        CellVal.s "Mobile In-App", CellVal.s "1000000"⟩]
      [⟨CellVal.s "BVP_9", CellVal.s "Yes", CellVal.s "Direct"⟩]
      (CellVal.s "BVT_777") =
      (CellVal.s "nan", CellVal.s "N/A", CellVal.s "N/A") ∧
    tgMergeRow
      [⟨CellVal.s "BVT_001", CellVal.s "BVP_9",
        CellVal.s "Mobile In-App", CellVal.s "1000000"⟩]
      [⟨CellVal.s "BVP_9", CellVal.s "Yes", CellVal.s "Direct"⟩]
      (CellVal.s "BVT_777") =
      (CellVal.na, CellVal.na, CellVal.na, CellVal.na, CellVal.na) :=
  merged_sentinel_bug
    [⟨CellVal.s "BVT_001", CellVal.s "BVP_9",
      CellVal.s "Mobile In-App", CellVal.s "1000000"⟩]
    [⟨CellVal.s "BVP_9", CellVal.s "Yes", CellVal.s "Direct"⟩]
    (CellVal.s "BVT_777")
    (by decide) (by decide)

/-! ## `brief_extractor.py`: `standardize_date_format` (C5, C9)

The date model follows CPython's `_strptime` implementation: each format
directive compiles to a regular-expression fragment, the fragments are
matched with backtracking over the whole string, and the resulting fields
must form a constructible `datetime` (otherwise that format raises
`ValueError` and the loop continues). -/

/-- A calendar date as carried by a Python `datetime`. -/
structure Date where
  y : Nat
  m : Nat
  d : Nat
deriving Repr, DecidableEq

/-- The Gregorian leap-year rule used by `datetime`. -/
def isLeap (y : Nat) : Bool :=
  y % 4 == 0 && (y % 100 != 0 || y % 400 == 0)

/-- Days in a month of a given year. -/
def daysInMonth (y m : Nat) : Nat :=
  if m = 2 then (if isLeap y then 29 else 28)
  else if m = 4 ∨ m = 6 ∨ m = 9 ∨ m = 11 then 30
  else 31

/-- Days in a year. -/
def daysInYear (y : Nat) : Nat := if isLeap y then 366 else 365

/-- The `datetime` constructor's validity check (year 1-9999). -/
def Date.valid (dt : Date) : Bool :=
  1 ≤ dt.y && dt.y ≤ 9999 && 1 ≤ dt.m && dt.m ≤ 12 &&
  1 ≤ dt.d && dt.d ≤ daysInMonth dt.y dt.m

/-- Fields collected while matching one `strptime` format. -/
structure PD where
  y : Option Nat
  m : Option Nat
  d : Option Nat
deriving Repr, DecidableEq

/-- One compiled `strptime` directive. -/
inductive Dir where
  | lit : Char → Dir
  | ws : Dir
  | dY : Dir
  | dy : Dir
  | dm : Dir
  | dd : Dir
  | dB : Dir
  | db : Dir

/-- First success over a candidate list (regex alternation order). -/
def tryList {α β : Type} : List α → (α → Option β) → Option β
  | [], _ => none
  | a :: t, f =>
    match f a with
    | some b => some b
    | none => tryList t f

/-- Candidates of `\s+` (greedy, longest first). -/
def wsCands (s : List Char) : List (List Char) :=
  let k := (s.takeWhile isPySpace).length
  (List.range k).map (fun i => s.drop (k - i))

/-- Candidates of the `%Y` fragment `\d\d\d\d`. -/
def candY : List Char → List (Nat × List Char)
  | a :: b :: c :: d :: r =>
    if (a.isDigit && b.isDigit && c.isDigit && d.isDigit) = true then
      [((((a.toNat - 48) * 10 + (b.toNat - 48)) * 10 + (c.toNat - 48)) * 10
          + (d.toNat - 48), r)]
    else []
  | _ => []

/-- Candidates of the `%y` fragment `\d\d` (raw two-digit value). -/
def candy : List Char → List (Nat × List Char)
  | a :: b :: r =>
    if (a.isDigit && b.isDigit) = true then
      [((a.toNat - 48) * 10 + (b.toNat - 48), r)]
    else []
  | _ => []

/-- Candidates of the `%m` fragment `1[0-2]|0[1-9]|[1-9]`, in
alternation order. -/
def candM (s : List Char) : List (Nat × List Char) :=
  (match s with
   | c1 :: c2 :: r =>
     if c1.toNat = 49 ∧ 48 ≤ c2.toNat ∧ c2.toNat ≤ 50 then
       [(10 + (c2.toNat - 48), r)]
     else []
   | _ => []) ++
  (match s with
   | c1 :: c2 :: r =>
     if c1.toNat = 48 ∧ 49 ≤ c2.toNat ∧ c2.toNat ≤ 57 then
       [(c2.toNat - 48, r)]
     else []
   | _ => []) ++
  (match s with
   | c1 :: r =>
     if 49 ≤ c1.toNat ∧ c1.toNat ≤ 57 then [(c1.toNat - 48, r)] else []
   | _ => [])

/-- Candidates of the `%d` fragment `3[01]|[12]\d|0[1-9]|[1-9]`, in
alternation order. -/
def candD (s : List Char) : List (Nat × List Char) :=
  (match s with
   | c1 :: c2 :: r =>
     if c1.toNat = 51 ∧ 48 ≤ c2.toNat ∧ c2.toNat ≤ 49 then
       [(30 + (c2.toNat - 48), r)]
     else []
   | _ => []) ++
  (match s with
   | c1 :: c2 :: r =>
     if (49 ≤ c1.toNat ∧ c1.toNat ≤ 50) ∧ (48 ≤ c2.toNat ∧ c2.toNat ≤ 57)
     then [((c1.toNat - 48) * 10 + (c2.toNat - 48), r)]
     else []
   | _ => []) ++
  (match s with
   | c1 :: c2 :: r =>
     if c1.toNat = 48 ∧ 49 ≤ c2.toNat ∧ c2.toNat ≤ 57 then
       [(c2.toNat - 48, r)]
     else []
   | _ => []) ++
  (match s with
   | c1 :: r =>
     if 49 ≤ c1.toNat ∧ c1.toNat ≤ 57 then [(c1.toNat - 48, r)] else []
   | _ => [])

/-- English month names in `_strptime` alternation order (sorted by
length, descending, stable). -/
def monthNamesFull : List (String × Nat) :=
  [("september", 9), ("february", 2), ("november", 11), ("december", 12),
   ("january", 1), ("october", 10), ("august", 8), ("march", 3),
   ("april", 4), ("june", 6), ("july", 7), ("may", 5)]

/-- English month abbreviations in `_strptime` alternation order (all
length three, original order). -/
def monthNamesAbbr : List (String × Nat) :=
  [("jan", 1), ("feb", 2), ("mar", 3), ("apr", 4), ("may", 5), ("jun", 6),
   ("jul", 7), ("aug", 8), ("sep", 9), ("oct", 10), ("nov", 11),
   ("dec", 12)]

/-- Candidates of a month-name alternation, matched case-insensitively. -/
def candName (tbl : List (String × Nat)) (s : List Char) :
    List (Nat × List Char) :=
  tbl.filterMap (fun p =>
    if p.1.data.isPrefixOf (s.map Char.toLower) then
      some (p.2, s.drop p.1.data.length)
    else none)

/-- The backtracking matcher over a compiled directive list, requiring a
full match (as `_strptime` rejects unconverted trailing data). -/
def matchDirs : List Dir → List Char → PD → Option PD
  | [], s, pd => if s.isEmpty then some pd else none
  | .lit c :: rest, s, pd =>
    match s with
    | c' :: r => if c' = c then matchDirs rest r pd else none
    | [] => none
  | .ws :: rest, s, pd =>
    tryList (wsCands s) (fun r => matchDirs rest r pd)
  | .dY :: rest, s, pd =>
    tryList (candY s) (fun vr =>
      matchDirs rest vr.2 { pd with y := some vr.1 })
  | .dy :: rest, s, pd =>
    tryList (candy s) (fun vr =>
      matchDirs rest vr.2
        { pd with y := some (if vr.1 ≤ 68 then 2000 + vr.1 else 1900 + vr.1) })
  | .dm :: rest, s, pd =>
    tryList (candM s) (fun vr =>
      matchDirs rest vr.2 { pd with m := some vr.1 })
  | .dd :: rest, s, pd =>
    tryList (candD s) (fun vr =>
      matchDirs rest vr.2 { pd with d := some vr.1 })
  | .dB :: rest, s, pd =>
    tryList (candName monthNamesFull s) (fun vr =>
      matchDirs rest vr.2 { pd with m := some vr.1 })
  | .db :: rest, s, pd =>
    tryList (candName monthNamesAbbr s) (fun vr =>
      matchDirs rest vr.2 { pd with m := some vr.1 })

/-- `datetime.strptime` against one compiled format: full regex match,
then the `datetime` constructor's validity check. -/
def strptime1 (dirs : List Dir) (s : String) : Option Date :=
  match matchDirs dirs s.data ⟨none, none, none⟩ with
  | some pd =>
    match pd.y, pd.m, pd.d with
    | some y, some m, some d =>
      if (⟨y, m, d⟩ : Date).valid then some ⟨y, m, d⟩ else none
    | _, _, _ => none
  | none => none

/-- The compiled `'%Y-%m-%d'` format. -/
def fmtYmd : List Dir := [.dY, .lit '-', .dm, .lit '-', .dd]

/-- The compiled `'%m/%d/%Y'` format. -/
def fmtMdY : List Dir := [.dm, .lit '/', .dd, .lit '/', .dY]

/-- The fourteen formats tried by `standardize_date_format`, in source
order. -/
def fmts : List (List Dir) :=
  [fmtYmd, fmtMdY,
   [.dm, .lit '-', .dd, .lit '-', .dY],
   [.dd, .lit '-', .dm, .lit '-', .dY],
   [.dd, .lit '/', .dm, .lit '/', .dY],
   [.dB, .ws, .dd, .lit ',', .ws, .dY],
   [.db, .ws, .dd, .lit ',', .ws, .dY],
   [.dY, .lit '/', .dm, .lit '/', .dd],
   [.dm, .lit '/', .dd, .lit '/', .dy],
   [.dd, .lit '/', .dm, .lit '/', .dy],
   [.dy, .lit '-', .dm, .lit '-', .dd],
   [.dm, .lit '.', .dd, .lit '.', .dY],
   [.dd, .lit '.', .dm, .lit '.', .dY],
   [.dY, .lit '.', .dm, .lit '.', .dd]]

/-- The format loop: first format whose `strptime` succeeds. -/
def tryFormats : List (List Dir) → String → Option Date
  | [], _ => none
  | f :: fs, s =>
    match strptime1 f s with
    | some dt => some dt
    | none => tryFormats fs s

/-- Decimal digits of `n`, left-padded with zeros to `width`. -/
def padDigits (width n : Nat) : List Char :=
  List.replicate (width - (natDecStr n).data.length) '0' ++ (natDecStr n).data

/-- `strftime('%m/%d/%Y')`: zero-padded month, day and four-digit year. -/
def formatDate (dt : Date) : String :=
  String.mk (padDigits 2 dt.m ++ '/' :: (padDigits 2 dt.d ++ '/' ::
    padDigits 4 dt.y))

/-- Walk whole years from a day count (day `n` counted from Jan 1 of
`year`), with structural fuel. -/
def yearWalk : Nat → Nat → Nat → Nat × Nat
  | 0, y, n => (y, n)
  | f + 1, y, n =>
    if n < daysInYear y then (y, n) else yearWalk f (y + 1) (n - daysInYear y)

/-- Walk whole months within a year (day `n` counted from the first of
month `m`), with structural fuel. -/
def monthWalk : Nat → Nat → Nat → Nat → Nat × Nat
  | 0, _, m, n => (m, n)
  | f + 1, y, m, n =>
    if n < daysInMonth y m then (m, n)
    else monthWalk f y (m + 1) (n - daysInMonth y m)

/-- The spreadsheet-serial branch: `pd.to_datetime('1899-12-30') +
pd.Timedelta(days=float(s))`, whose civil date is 1899-12-30 plus the
whole-day part of the serial. -/
def serialToDate (s : Nat) : Date :=
  let n := s - 2
  let yr := yearWalk 200 1900 n
  let mr := monthWalk 12 yr.1 1 yr.2
  ⟨yr.1, mr.1, mr.2 + 1⟩

/-- Decimal string of an integer. -/
def intDecStr (n : Int) : String :=
  if n < 0 then "-" ++ natDecStr n.natAbs else natDecStr n.natAbs

/-- A Python value reaching `standardize_date_format`: None/NaN, a
string, an int, a float, or a `datetime`/`Timestamp`. -/
inductive PyVal where
  | vNan : PyVal
  | vStr : String → PyVal
  | vInt : Int → PyVal
  | vFloat : Dec → PyVal
  | vDate : Date → PyVal
deriving Repr, DecidableEq

/-- The guard `not date_str or pd.isna(date_str)`. -/
def PyVal.falsyOrNa : PyVal → Bool
  | .vNan => true
  | .vStr s => s.data.isEmpty
  | .vInt n => n == 0
  | .vFloat x => x.num == 0
  | .vDate _ => false

/-- Python `str()` of such a value. -/
def PyVal.pyStr : PyVal → String
  | .vNan => "nan"
  | .vStr s => s
  | .vInt n => intDecStr n
  | .vFloat x => qPyStr x
  | .vDate dt => String.mk (padDigits 4 dt.y) ++ "-" ++
      String.mk (padDigits 2 dt.m) ++ "-" ++
      String.mk (padDigits 2 dt.d) ++ " 00:00:00"

/-- The tail of `standardize_date_format`: the fourteen-format `strptime`
loop on the stripped `str()` image, then the `pd.to_datetime` fallback
(kept as a parameter `toDt`), then the trimmed original. -/
def dateFallback (toDt : PyVal → Option Date) (v : PyVal) : PyVal :=
  match tryFormats fmts (pyStrip v.pyStr) with
  | some dt => .vStr (formatDate dt)
  | none =>
    match toDt v with
    | some dt => .vStr (formatDate dt)
    | none => .vStr (pyStrip v.pyStr)

/-- Embeds `standardize_date_format` (`brief_extractor.py` lines 72-124),
parameterized by the `pd.to_datetime` last-resort parser `toDt`. -/
def standardize (toDt : PyVal → Option Date) (v : PyVal) : PyVal :=
  if v.falsyOrNa then v
  else
    match v with
    | .vDate dt => .vStr (formatDate dt)
    | .vInt n =>
      if 30000 < n ∧ n < 70000 then
        .vStr (formatDate (serialToDate n.toNat))
      else dateFallback toDt v
    | .vFloat x =>
      if ((Dec.ofInt 30000).blt x && x.blt (Dec.ofInt 70000)) = true then
        .vStr (formatDate (serialToDate x.floorD.toNat))
      else dateFallback toDt v
    | w => dateFallback toDt w

/-- C9 counterexample: NaN and the falsy integer 0 are returned as-is by
the opening guard of `standardize_date_format` — the result is the
original non-string value, not a trimmed string. -/
theorem date_falsy_passthrough_counterexample :
    standardize (fun _ => none) PyVal.vNan = PyVal.vNan ∧
    standardize (fun _ => none) (PyVal.vInt 0) = PyVal.vInt 0 ∧
    (∀ s, PyVal.vNan ≠ PyVal.vStr s) := by
  refine ⟨by decide, by decide, ?_⟩
  intro s h
  exact PyVal.noConfusion h

/-- C9 (amended): `standardize_date_format` either returns a falsy/NaN
input unchanged (possibly a non-string), or a `strftime('%m/%d/%Y')`
image of some date, or the trimmed `str()` of the input; totality of the
embedding reflects that the wrapping `try/except` prevents any
exception from escaping. -/
theorem date_normalization_trichotomy (toDt : PyVal → Option Date)
    (v : PyVal) :
    (v.falsyOrNa = true ∧ standardize toDt v = v) ∨
    (∃ dt, standardize toDt v = PyVal.vStr (formatDate dt)) ∨
    standardize toDt v = PyVal.vStr (pyStrip v.pyStr) := by
  by_cases hf : v.falsyOrNa = true
  · exact Or.inl ⟨hf, by unfold standardize; rw [if_pos hf]⟩
  · have hfb : ∀ w : PyVal,
        (∃ dt, dateFallback toDt w = PyVal.vStr (formatDate dt)) ∨
        dateFallback toDt w = PyVal.vStr (pyStrip w.pyStr) := by
      intro w
      unfold dateFallback
      cases htf : tryFormats fmts (pyStrip w.pyStr) with
      | some dt => exact Or.inl ⟨dt, rfl⟩
      | none =>
        cases htd : toDt w with
        | some dt => exact Or.inl ⟨dt, rfl⟩
        | none => exact Or.inr rfl
    right
    unfold standardize
    rw [if_neg hf]
    cases v with
    | vNan => exact hfb PyVal.vNan
    | vStr s => exact hfb (PyVal.vStr s)
    | vInt n =>
      dsimp only
      by_cases hs : 30000 < n ∧ n < 70000
      · rw [if_pos hs]
        exact Or.inl ⟨serialToDate n.toNat, rfl⟩
      · rw [if_neg hs]
        exact hfb (PyVal.vInt n)
    | vFloat x =>
      dsimp only
      by_cases hs : ((Dec.ofInt 30000).blt x && x.blt (Dec.ofInt 70000))
          = true
      · rw [if_pos hs]
        exact Or.inl ⟨serialToDate x.floorD.toNat, rfl⟩
      · rw [if_neg hs]
        exact hfb (PyVal.vFloat x)
    | vDate dt => exact Or.inl ⟨dt, rfl⟩

/-- Witness for C9: the trichotomy at a concrete unparseable string. -/
theorem date_normalization_trichotomy_witness :
    ((PyVal.vStr "hello").falsyOrNa = true ∧
      standardize (fun _ => none) (PyVal.vStr "hello") =
        PyVal.vStr "hello") ∨
    (∃ dt, standardize (fun _ => none) (PyVal.vStr "hello") =
      PyVal.vStr (formatDate dt)) ∨
    standardize (fun _ => none) (PyVal.vStr "hello") =
      PyVal.vStr (pyStrip (PyVal.vStr "hello").pyStr) :=
  date_normalization_trichotomy (fun _ => none) (PyVal.vStr "hello")

/-- One-digit rendering, any sufficient fuel. -/
theorem natDecDigits_one (f n : Nat) (hf : 0 < f) (h : n < 10) :
    natDecDigits f n = [Char.ofNat (48 + n)] := by
  cases f with
  | zero => omega
  | succ f' =>
    conv_lhs => rw [natDecDigits]
    rw [if_pos h]

/-- Two-digit rendering, any sufficient fuel. -/
theorem natDecDigits_two (f n : Nat) (hf : 2 ≤ f) (h1 : 10 ≤ n)
    (h2 : n ≤ 99) :
    natDecDigits f n = [Char.ofNat (48 + n / 10), Char.ofNat (48 + n % 10)] := by
  cases f with
  | zero => omega
  | succ f' =>
    conv_lhs => rw [natDecDigits]
    rw [if_neg (by omega), natDecDigits_one f' (n / 10) (by omega) (by omega)]
    rfl

/-- Three-digit rendering, any sufficient fuel. -/
theorem natDecDigits_three (f n : Nat) (hf : 3 ≤ f) (h1 : 100 ≤ n)
    (h2 : n ≤ 999) :
    natDecDigits f n = [Char.ofNat (48 + n / 100),
      Char.ofNat (48 + n / 10 % 10), Char.ofNat (48 + n % 10)] := by
  cases f with
  | zero => omega
  | succ f' =>
    conv_lhs => rw [natDecDigits]
    rw [if_neg (by omega), natDecDigits_two f' (n / 10) (by omega) (by omega)
      (by omega)]
    have e1 : n / 10 / 10 = n / 100 := by omega
    have e2 : n / 10 % 10 = n / 10 % 10 := rfl
    rw [e1]
    rfl

/-- Four-digit rendering, any sufficient fuel. -/
theorem natDecDigits_four (f n : Nat) (hf : 4 ≤ f) (h1 : 1000 ≤ n)
    (h2 : n ≤ 9999) :
    natDecDigits f n = [Char.ofNat (48 + n / 1000),
      Char.ofNat (48 + n / 100 % 10), Char.ofNat (48 + n / 10 % 10),
      Char.ofNat (48 + n % 10)] := by
  cases f with
  | zero => omega
  | succ f' =>
    conv_lhs => rw [natDecDigits]
    rw [if_neg (by omega), natDecDigits_three f' (n / 10) (by omega)
      (by omega) (by omega)]
    have e1 : n / 10 / 100 = n / 1000 := by omega
    have e2 : n / 10 / 10 % 10 = n / 100 % 10 := by omega
    rw [e1, e2]
    rfl

/-- The two-column zero-padded digits of `n ≤ 99`. -/
theorem padDigits_two (n : Nat) (h : n ≤ 99) :
    padDigits 2 n = [Char.ofNat (48 + n / 10), Char.ofNat (48 + n % 10)] := by
  by_cases h1 : n < 10
  · have hd : (natDecStr n).data = [Char.ofNat (48 + n)] := natDecStr_small n h1
    unfold padDigits
    rw [hd]
    have e1 : n / 10 = 0 := by omega
    have e2 : n % 10 = n := by omega
    rw [e1, e2]
    rfl
  · have hd : (natDecStr n).data =
        [Char.ofNat (48 + n / 10), Char.ofNat (48 + n % 10)] := by
      show (natDecDigits (n + 1) n) = _
      exact natDecDigits_two (n + 1) n (by omega) (by omega) h
    unfold padDigits
    rw [hd]
    rfl

/-- The four-column zero-padded digits of `n ≤ 9999`. -/
theorem padDigits_four (n : Nat) (h : n ≤ 9999) :
    padDigits 4 n = [Char.ofNat (48 + n / 1000), Char.ofNat (48 + n / 100 % 10),
      Char.ofNat (48 + n / 10 % 10), Char.ofNat (48 + n % 10)] := by
  unfold padDigits
  by_cases h1 : n < 10
  · rw [natDecStr_small n h1]
    have e1 : n / 1000 = 0 := by omega
    have e2 : n / 100 % 10 = 0 := by omega
    have e3 : n / 10 % 10 = 0 := by omega
    have e4 : n % 10 = n := by omega
    rw [e1, e2, e3, e4]
    rfl
  · by_cases h2 : n < 100
    · have hd : (natDecStr n).data =
          [Char.ofNat (48 + n / 10), Char.ofNat (48 + n % 10)] := by
        show (natDecDigits (n + 1) n) = _
        exact natDecDigits_two (n + 1) n (by omega) (by omega) (by omega)
      rw [hd]
      have e1 : n / 1000 = 0 := by omega
      have e2 : n / 100 % 10 = 0 := by omega
      have e3 : n / 10 % 10 = n / 10 := by omega
      rw [e1, e2, e3]
      rfl
    · by_cases h3 : n < 1000
      · have hd : (natDecStr n).data = [Char.ofNat (48 + n / 100),
            Char.ofNat (48 + n / 10 % 10), Char.ofNat (48 + n % 10)] := by
          show (natDecDigits (n + 1) n) = _
          exact natDecDigits_three (n + 1) n (by omega) (by omega) (by omega)
        rw [hd]
        have e1 : n / 1000 = 0 := by omega
        have e2 : n / 100 % 10 = n / 100 := by omega
        rw [e1, e2]
        rfl
      · have hd : (natDecStr n).data = [Char.ofNat (48 + n / 1000),
            Char.ofNat (48 + n / 100 % 10), Char.ofNat (48 + n / 10 % 10),
            Char.ofNat (48 + n % 10)] := by
          show (natDecDigits (n + 1) n) = _
          exact natDecDigits_four (n + 1) n (by omega) (by omega) h
        rw [hd]
        rfl

/-- `tryList` returns the first success. -/
theorem tryList_cons_some {α β : Type} (a : α) (t : List α)
    (f : α → Option β) (b : β) (h : f a = some b) :
    tryList (a :: t) f = some b := by
  simp [tryList, h]

/-- `%Y` on four digit characters. -/
theorem candY_digits (a b c d : Nat) (r : List Char) (ha : a < 10)
    (hb : b < 10) (hc : c < 10) (hd : d < 10) :
    candY (Char.ofNat (48 + a) :: Char.ofNat (48 + b) ::
      Char.ofNat (48 + c) :: Char.ofNat (48 + d) :: r) =
      [(((a * 10 + b) * 10 + c) * 10 + d, r)] := by
  simp only [candY]
  rw [if_pos (by simp [(digitChar_spec a ha).2, (digitChar_spec b hb).2,
    (digitChar_spec c hc).2, (digitChar_spec d hd).2])]
  have e : ((((Char.ofNat (48 + a)).toNat - 48) * 10 +
      ((Char.ofNat (48 + b)).toNat - 48)) * 10 +
      ((Char.ofNat (48 + c)).toNat - 48)) * 10 +
      ((Char.ofNat (48 + d)).toNat - 48) =
      ((a * 10 + b) * 10 + c) * 10 + d := by
    rw [(digitChar_spec a ha).1, (digitChar_spec b hb).1,
      (digitChar_spec c hc).1, (digitChar_spec d hd).1]
    omega
  rw [e]

/-- `%m` on a zero-padded two-digit month: the true value is the first
candidate. -/
theorem candM_pad (m : Nat) (r : List Char) (h1 : 1 ≤ m) (h2 : m ≤ 12) :
    ∃ tl, candM (padDigits 2 m ++ r) = (m, r) :: tl := by
  rw [padDigits_two m (by omega)]
  have ha : (Char.ofNat (48 + m / 10)).toNat = 48 + m / 10 :=
    (digitChar_spec _ (by omega)).1
  have hb : (Char.ofNat (48 + m % 10)).toNat = 48 + m % 10 :=
    (digitChar_spec _ (by omega)).1
  simp only [candM, List.cons_append, ha, hb]
  by_cases hm : m < 10
  · refine ⟨[], ?_⟩
    rw [if_neg (by omega), if_pos (by omega), if_neg (by omega)]
    have e : 48 + m % 10 - 48 = m := by omega
    rw [e]
    rfl
  · refine ⟨[(1, Char.ofNat (48 + m % 10) :: r)], ?_⟩
    rw [if_pos (by omega), if_neg (by omega), if_pos (by omega)]
    have e1 : 10 + (48 + m % 10 - 48) = m := by omega
    have e2 : 48 + m / 10 - 48 = 1 := by omega
    rw [e1, e2]
    rfl

/-- `%d` on a zero-padded two-digit day: the true value is the first
candidate. -/
theorem candD_pad (d : Nat) (r : List Char) (h1 : 1 ≤ d) (h2 : d ≤ 31) :
    ∃ tl, candD (padDigits 2 d ++ r) = (d, r) :: tl := by
  rw [padDigits_two d (by omega)]
  have ha : (Char.ofNat (48 + d / 10)).toNat = 48 + d / 10 :=
    (digitChar_spec _ (by omega)).1
  have hb : (Char.ofNat (48 + d % 10)).toNat = 48 + d % 10 :=
    (digitChar_spec _ (by omega)).1
  simp only [candD, List.cons_append, ha, hb]
  by_cases hd1 : d < 10
  · refine ⟨[], ?_⟩
    rw [if_neg (by omega), if_neg (by omega), if_pos (by omega),
      if_neg (by omega)]
    have e : 48 + d % 10 - 48 = d := by omega
    rw [e]
    rfl
  · by_cases hd2 : d < 30
    · refine ⟨[(d / 10, Char.ofNat (48 + d % 10) :: r)], ?_⟩
      rw [if_neg (by omega), if_pos (by omega), if_neg (by omega),
        if_pos (by omega)]
      have e1 : (48 + d / 10 - 48) * 10 + (48 + d % 10 - 48) = d := by omega
      have e2 : 48 + d / 10 - 48 = d / 10 := by omega
      rw [e1, e2]
      rfl
    · refine ⟨[(3, Char.ofNat (48 + d % 10) :: r)], ?_⟩
      rw [if_pos (by omega), if_neg (by omega), if_neg (by omega),
        if_pos (by omega)]
      have e1 : 30 + (48 + d % 10 - 48) = d := by omega
      have e2 : 48 + d / 10 - 48 = 3 := by omega
      rw [e1, e2]
      rfl

/-- Full match of the compiled `'%m/%d/%Y'` against a formatted date. -/
theorem matchDirs_fmtMdY (mv dv yv : Nat) (hm1 : 1 ≤ mv) (hm2 : mv ≤ 12)
    (hd1 : 1 ≤ dv) (hd2 : dv ≤ 31) (hy : yv ≤ 9999) :
    matchDirs fmtMdY
      (padDigits 2 mv ++ '/' :: (padDigits 2 dv ++ '/' :: padDigits 4 yv))
      ⟨none, none, none⟩ = some ⟨some yv, some mv, some dv⟩ := by
  obtain ⟨tl1, hc1⟩ := candM_pad mv
    ('/' :: (padDigits 2 dv ++ '/' :: padDigits 4 yv)) hm1 hm2
  simp only [fmtMdY, matchDirs]
  rw [hc1]
  apply tryList_cons_some
  dsimp only
  rw [if_pos rfl]
  obtain ⟨tl2, hc2⟩ := candD_pad dv ('/' :: padDigits 4 yv) hd1 hd2
  rw [hc2]
  apply tryList_cons_some
  dsimp only
  rw [if_pos rfl]
  rw [padDigits_four yv hy]
  rw [candY_digits (yv / 1000) (yv / 100 % 10) (yv / 10 % 10) (yv % 10) []
    (by omega) (by omega) (by omega) (by omega)]
  apply tryList_cons_some
  dsimp only
  simp only [List.isEmpty_nil]
  rw [if_pos trivial]
  have e : ((yv / 1000 * 10 + yv / 100 % 10) * 10 + yv / 10 % 10) * 10 +
      yv % 10 = yv := by omega
  rw [e]

/-- The first format `'%Y-%m-%d'` rejects a `'%m/%d/%Y'`-formatted
string (the third character is a slash, not a digit). -/
theorem strptime1_fmtYmd_formatted (dt : Date) (hm : dt.m ≤ 99)
    (hd : dt.d ≤ 99) (hy : dt.y ≤ 9999) :
    strptime1 fmtYmd (formatDate dt) = none := by
  unfold strptime1
  have hdata : (formatDate dt).data =
      padDigits 2 dt.m ++ '/' :: (padDigits 2 dt.d ++ '/' ::
        padDigits 4 dt.y) := rfl
  rw [hdata, padDigits_two dt.m hm, padDigits_two dt.d hd]
  have hcand : candY (Char.ofNat (48 + dt.m / 10) ::
      Char.ofNat (48 + dt.m % 10) :: '/' ::
      (Char.ofNat (48 + dt.d / 10) :: Char.ofNat (48 + dt.d % 10) :: '/' ::
        padDigits 4 dt.y)) = [] := by
    simp only [candY]
    rw [if_neg (by simp [(by decide : ('/' : Char).isDigit = false)])]
  simp only [fmtYmd, matchDirs, List.cons_append, List.nil_append]
  rw [hcand]
  rfl

/-- Any month has at most 31 days. -/
theorem daysInMonth_le (y m : Nat) : daysInMonth y m ≤ 31 := by
  unfold daysInMonth
  split
  · split <;> omega
  · split <;> omega

/-- Any year has at least 365 days. -/
theorem daysInYear_ge (y : Nat) : 365 ≤ daysInYear y := by
  unfold daysInYear
  split <;> omega

/-- A formatted valid date is recovered exactly by the `strptime` loop:
the `'%Y-%m-%d'` format rejects it and `'%m/%d/%Y'` parses it back. -/
theorem strptime_roundtrip (dt : Date) (h : dt.valid = true) :
    tryFormats fmts (formatDate dt) = some dt := by
  have hb : ((((1 ≤ dt.y ∧ dt.y ≤ 9999) ∧ 1 ≤ dt.m) ∧ dt.m ≤ 12) ∧
      1 ≤ dt.d) ∧ dt.d ≤ daysInMonth dt.y dt.m := by
    simpa [Date.valid, Bool.and_eq_true, decide_eq_true_eq] using h
  obtain ⟨⟨⟨⟨⟨hy1, hy2⟩, hm1⟩, hm2⟩, hd1⟩, hd2⟩ := hb
  have hd31 : dt.d ≤ 31 := le_trans hd2 (daysInMonth_le dt.y dt.m)
  have h1 : strptime1 fmtYmd (formatDate dt) = none :=
    strptime1_fmtYmd_formatted dt (by omega) (by omega) hy2
  have h2 : strptime1 fmtMdY (formatDate dt) = some dt := by
    unfold strptime1
    have hdata : (formatDate dt).data =
        padDigits 2 dt.m ++ '/' :: (padDigits 2 dt.d ++ '/' ::
          padDigits 4 dt.y) := rfl
    rw [hdata, matchDirs_fmtMdY dt.m dt.d dt.y hm1 hm2 hd1 hd31 hy2]
    dsimp only
    rw [if_pos (show (⟨dt.y, dt.m, dt.d⟩ : Date).valid = true from h)]
  simp only [fmts, tryFormats, h1, h2]

/-- `strptime` against one format only succeeds on constructible
dates. -/
theorem strptime1_valid (dirs : List Dir) (s : String) (dt : Date)
    (h : strptime1 dirs s = some dt) : dt.valid = true := by
  unfold strptime1 at h
  cases hm : matchDirs dirs s.data ⟨none, none, none⟩ with
  | none => rw [hm] at h; exact absurd h (by simp)
  | some pd =>
    rw [hm] at h
    rcases pd with ⟨py, pm, pdd⟩
    rcases py with _ | yv <;> rcases pm with _ | mv <;>
      rcases pdd with _ | dv <;> dsimp only at h <;>
      try exact Option.noConfusion h
    split at h
    · injection h with he
      subst he
      assumption
    · exact absurd h (by simp)

/-- The format loop only succeeds on constructible dates. -/
theorem tryFormats_valid : ∀ (fs : List (List Dir)) (s : String)
    (dt : Date), tryFormats fs s = some dt → dt.valid = true := by
  intro fs
  induction fs with
  | nil => intro s dt h; exact absurd h (by simp [tryFormats])
  | cons f fs ih =>
    intro s dt h
    simp only [tryFormats] at h
    cases hs : strptime1 f s with
    | some dt' =>
      rw [hs] at h
      dsimp only at h
      injection h with he
      subst he
      exact strptime1_valid f s dt' hs
    | none =>
      rw [hs] at h
      exact ih s dt h

/-- The year walk lands strictly inside a year and moves at most `fuel`
years forward. -/
theorem yearWalk_spec : ∀ (f y n : Nat), n < 365 * f →
    (yearWalk f y n).2 < daysInYear (yearWalk f y n).1 ∧
    y ≤ (yearWalk f y n).1 ∧ (yearWalk f y n).1 ≤ y + f := by
  intro f
  induction f with
  | zero => intro y n h; omega
  | succ f ih =>
    intro y n h
    simp only [yearWalk]
    by_cases hn : n < daysInYear y
    · rw [if_pos hn]
      exact ⟨hn, le_refl y, by omega⟩
    · rw [if_neg hn]
      have h365 := daysInYear_ge y
      obtain ⟨ha, hb, hc⟩ := ih (y + 1) (n - daysInYear y) (by omega)
      exact ⟨ha, by omega, by omega⟩

/-- Total days of the months `m, m+1, …` over `f` months. -/
def sumDaysFrom : Nat → Nat → Nat → Nat
  | 0, _, _ => 0
  | f + 1, y, m => daysInMonth y m + sumDaysFrom f y (m + 1)

/-- A year is the twelve months laid end to end. -/
theorem daysInYear_eq_sum (y : Nat) : daysInYear y = sumDaysFrom 12 y 1 := by
  have e : sumDaysFrom 12 y 1 = daysInMonth y 1 + (daysInMonth y 2 +
      (daysInMonth y 3 + (daysInMonth y 4 + (daysInMonth y 5 +
      (daysInMonth y 6 + (daysInMonth y 7 + (daysInMonth y 8 +
      (daysInMonth y 9 + (daysInMonth y 10 + (daysInMonth y 11 +
      (daysInMonth y 12 + 0))))))))))) := rfl
  cases hl : isLeap y <;> simp [daysInYear, e, daysInMonth, hl]

/-- The month walk lands strictly inside a month and stays within the
fuelled month range. -/
theorem monthWalk_spec : ∀ (f y m n : Nat), n < sumDaysFrom f y m →
    m ≤ (monthWalk f y m n).1 ∧ (monthWalk f y m n).1 < m + f ∧
    (monthWalk f y m n).2 < daysInMonth y (monthWalk f y m n).1 := by
  intro f
  induction f with
  | zero => intro y m n h; simp [sumDaysFrom] at h
  | succ f ih =>
    intro y m n h
    simp only [monthWalk]
    by_cases hn : n < daysInMonth y m
    · rw [if_pos hn]
      exact ⟨le_refl m, by omega, hn⟩
    · rw [if_neg hn]
      have hstep : sumDaysFrom (f + 1) y m =
          daysInMonth y m + sumDaysFrom f y (m + 1) := rfl
      obtain ⟨ha, hb, hc⟩ := ih y (m + 1) (n - daysInMonth y m) (by omega)
      exact ⟨by omega, by omega, hc⟩

/-- Any in-range spreadsheet serial produces a constructible date. -/
theorem serialToDate_valid (s : Nat) (h1 : 30000 ≤ s) (h2 : s ≤ 69999) :
    (serialToDate s).valid = true := by
  obtain ⟨hy, hylo, hyhi⟩ := yearWalk_spec 200 1900 (s - 2) (by omega)
  have hsum : (yearWalk 200 1900 (s - 2)).2 <
      sumDaysFrom 12 (yearWalk 200 1900 (s - 2)).1 1 := by
    rw [← daysInYear_eq_sum]
    exact hy
  obtain ⟨hm1, hm2, hmd⟩ := monthWalk_spec 12 (yearWalk 200 1900 (s - 2)).1
    1 (yearWalk 200 1900 (s - 2)).2 hsum
  show (⟨(yearWalk 200 1900 (s - 2)).1,
    (monthWalk 12 (yearWalk 200 1900 (s - 2)).1 1
      (yearWalk 200 1900 (s - 2)).2).1,
    (monthWalk 12 (yearWalk 200 1900 (s - 2)).1 1
      (yearWalk 200 1900 (s - 2)).2).2 + 1⟩ : Date).valid = true
  simp only [Date.valid, Bool.and_eq_true, decide_eq_true_eq]
  refine ⟨⟨⟨⟨⟨?_, ?_⟩, ?_⟩, ?_⟩, ?_⟩, ?_⟩ <;> omega

/-- Whatever `dropWhile` exposes at the head fails the test. -/
theorem head_dropWhile (p : Char → Bool) :
    ∀ (l : List Char) (c : Char), (l.dropWhile p).head? = some c →
      p c = false := by
  intro l
  induction l with
  | nil => intro c h; simp [List.dropWhile] at h
  | cons a t ih =>
    intro c h
    rw [List.dropWhile_cons] at h
    by_cases hp : p a = true
    · rw [if_pos hp] at h
      exact ih c h
    · rw [if_neg hp] at h
      simp only [List.head?_cons, Option.some.injEq] at h
      subst h
      exact Bool.not_eq_true _ ▸ hp

/-- A nonempty `dropWhile` image keeps the last element. -/
theorem getLast_dropWhile (p : Char → Bool) :
    ∀ l : List Char, l.dropWhile p ≠ [] →
      (l.dropWhile p).getLast? = l.getLast? := by
  intro l
  induction l with
  | nil => simp [List.dropWhile]
  | cons a t ih =>
    intro hne
    rw [List.dropWhile_cons] at hne ⊢
    by_cases hp : p a = true
    · rw [if_pos hp] at hne ⊢
      rw [ih hne]
      have ht : t ≠ [] := by
        intro he
        subst he
        simp [List.dropWhile] at hne
      cases t with
      | nil => exact absurd rfl ht
      | cons b u => simp [List.getLast?_cons_cons]
    · rw [if_neg hp]

/-- Python `strip` is idempotent (list form). -/
theorem pyStripList_idem (l : List Char) :
    pyStripList (pyStripList l) = pyStripList l := by
  have hstrip : pyStripList l =
      (((l.dropWhile isPySpace).reverse).dropWhile isPySpace).reverse := rfl
  by_cases hBe : ((l.dropWhile isPySpace).reverse).dropWhile isPySpace = []
  · rw [hstrip, hBe]
    rfl
  · have hhead1 : ∀ c, ((((l.dropWhile isPySpace).reverse).dropWhile
        isPySpace).reverse).head? = some c → isPySpace c = false := by
      intro c hc
      rw [List.head?_reverse] at hc
      rw [getLast_dropWhile isPySpace _ hBe] at hc
      rw [List.getLast?_reverse] at hc
      exact head_dropWhile isPySpace l c hc
    have hd1 : ((((l.dropWhile isPySpace).reverse).dropWhile
        isPySpace).reverse).dropWhile isPySpace =
        (((l.dropWhile isPySpace).reverse).dropWhile isPySpace).reverse :=
      dropWhile_eq_self_of_head _ _ (fun c hc =>
        hhead1 c (Option.mem_def.mp hc))
    have hd2 : (((l.dropWhile isPySpace).reverse).dropWhile
        isPySpace).dropWhile isPySpace =
        ((l.dropWhile isPySpace).reverse).dropWhile isPySpace :=
      dropWhile_eq_self_of_head _ _ (fun c hc =>
        head_dropWhile isPySpace _ c (Option.mem_def.mp hc))
    calc pyStripList (pyStripList l)
        = (((pyStripList l).dropWhile isPySpace).reverse.dropWhile
            isPySpace).reverse := rfl
      _ = pyStripList l := by
          rw [hstrip, hd1, List.reverse_reverse, hd2, ← hstrip]

/-- Python `strip` is idempotent. -/
theorem pyStrip_idem (s : String) : pyStrip (pyStrip s) = pyStrip s := by
  show String.mk (pyStripList (String.mk (pyStripList s.data)).data) = _
  exact congrArg String.mk (pyStripList_idem s.data)

/-- The padded digit block contains no whitespace. -/
theorem padDigits_nospace (w n : Nat) :
    ∀ c ∈ padDigits w n, isPySpace c = false := by
  intro c hc
  rcases List.mem_append.mp hc with hc | hc
  · have : c = '0' := List.eq_of_mem_replicate hc
    subst this
    decide
  · have hall := (natDecStr_spec n).2.1
    rw [List.all_eq_true] at hall
    have hdig : c.isDigit = true := by simpa using hall c hc
    cases hps : isPySpace c with
    | false => rfl
    | true => exact absurd hdig (by simp [space_not_digit c hps])

/-- A formatted date contains no whitespace. -/
theorem formatDate_nospace (dt : Date) :
    ∀ c ∈ (formatDate dt).data, isPySpace c = false := by
  intro c hc
  have hc' : c ∈ padDigits 2 dt.m ++ '/' :: (padDigits 2 dt.d ++ '/' ::
      padDigits 4 dt.y) := hc
  rcases List.mem_append.mp hc' with h | h
  · exact padDigits_nospace 2 dt.m c h
  · rcases List.mem_cons.mp h with h | h
    · subst h; decide
    · rcases List.mem_append.mp h with h | h
      · exact padDigits_nospace 2 dt.d c h
      · rcases List.mem_cons.mp h with h | h
        · subst h; decide
        · exact padDigits_nospace 4 dt.y c h

/-- A formatted date is a nonempty string. -/
theorem formatDate_nonempty (dt : Date) :
    (formatDate dt).data.isEmpty = false := by
  show (padDigits 2 dt.m ++ '/' :: (padDigits 2 dt.d ++ '/' ::
    padDigits 4 dt.y)).isEmpty = false
  cases padDigits 2 dt.m <;> rfl

/-- A formatted valid date is a fixed point of the standardizer. -/
theorem standardize_formatted (toDt : PyVal → Option Date) (dt : Date)
    (h : dt.valid = true) :
    standardize toDt (PyVal.vStr (formatDate dt)) =
      PyVal.vStr (formatDate dt) := by
  unfold standardize
  rw [if_neg (by simp [PyVal.falsyOrNa, formatDate_nonempty dt])]
  dsimp only
  unfold dateFallback
  have hstrip : pyStrip ((PyVal.vStr (formatDate dt)).pyStr) =
      formatDate dt := by
    show String.mk (pyStripList (formatDate dt).data) = formatDate dt
    rw [pyStripList_eq_self _ (formatDate_nospace dt)]
  rw [hstrip, strptime_roundtrip dt h]

/-- The fallback tail of the standardizer produces fixed points, given
that `pd.to_datetime` yields constructible dates and fails stably under
stringify-and-strip. -/
theorem dateFallback_idem (toDt : PyVal → Option Date)
    (H1 : ∀ v dt, toDt v = some dt → dt.valid = true)
    (H2 : ∀ v, toDt v = none →
      toDt (PyVal.vStr (pyStrip v.pyStr)) = none)
    (v : PyVal) :
    standardize toDt (dateFallback toDt v) = dateFallback toDt v := by
  unfold dateFallback
  cases htf : tryFormats fmts (pyStrip v.pyStr) with
  | some dt =>
    dsimp only
    exact standardize_formatted toDt dt (tryFormats_valid fmts _ dt htf)
  | none =>
    dsimp only
    cases htd : toDt v with
    | some dt =>
      dsimp only
      exact standardize_formatted toDt dt (H1 v dt htd)
    | none =>
      dsimp only
      by_cases hemp : (pyStrip v.pyStr).data.isEmpty = true
      · unfold standardize
        rw [if_pos (by simpa [PyVal.falsyOrNa] using hemp)]
      · unfold standardize
        rw [if_neg (by simpa [PyVal.falsyOrNa] using hemp)]
        dsimp only
        unfold dateFallback
        have hps : (PyVal.vStr (pyStrip v.pyStr)).pyStr =
            pyStrip v.pyStr := rfl
        have hss : pyStrip (pyStrip v.pyStr) = pyStrip v.pyStr :=
          pyStrip_idem _
        rw [hps, hss, htf, H2 v htd]

/-- C5: `standardize_date_format` is idempotent — on every well-formed
input (datetime inputs carry constructible dates, float inputs carry a
real float value) a second application returns the first result
unchanged, provided the `pd.to_datetime` last resort returns
constructible dates and fails stably under stringify-and-strip; and the
spreadsheet serial 45000 and the string "3/15/2023" both normalize to
the identical MM/DD/YYYY string "03/15/2023". -/
theorem date_normalization_idempotent (toDt : PyVal → Option Date)
    (H1 : ∀ v dt, toDt v = some dt → dt.valid = true)
    (H2 : ∀ v, toDt v = none →
      toDt (PyVal.vStr (pyStrip v.pyStr)) = none) :
    (∀ v : PyVal, (∀ dt, v = PyVal.vDate dt → dt.valid = true) →
      (∀ x, v = PyVal.vFloat x → x.den ≠ 0) →
      standardize toDt (standardize toDt v) = standardize toDt v) ∧
    standardize toDt (PyVal.vInt 45000) = PyVal.vStr "03/15/2023" ∧
    standardize toDt (PyVal.vStr "3/15/2023") = PyVal.vStr "03/15/2023" := by
  refine ⟨?_, ?_, ?_⟩
  · intro v hvd hvf
    by_cases hf : v.falsyOrNa = true
    · have hid : standardize toDt v = v := by
        unfold standardize
        rw [if_pos hf]
      rw [hid, hid]
    · cases v with
      | vNan => exact absurd rfl hf
      | vDate dt =>
        have hstd : standardize toDt (PyVal.vDate dt) =
            PyVal.vStr (formatDate dt) := by
          unfold standardize
          rw [if_neg hf]
        rw [hstd]
        exact standardize_formatted toDt dt (hvd dt rfl)
      | vStr s =>
        have hstd : standardize toDt (PyVal.vStr s) =
            dateFallback toDt (PyVal.vStr s) := by
          unfold standardize
          rw [if_neg hf]
        rw [hstd]
        exact dateFallback_idem toDt H1 H2 (PyVal.vStr s)
      | vInt n =>
        by_cases hs : 30000 < n ∧ n < 70000
        · have hstd : standardize toDt (PyVal.vInt n) =
              PyVal.vStr (formatDate (serialToDate n.toNat)) := by
            unfold standardize
            rw [if_neg hf]
            dsimp only
            rw [if_pos hs]
          rw [hstd]
          exact standardize_formatted toDt _
            (serialToDate_valid n.toNat (by omega) (by omega))
        · have hstd : standardize toDt (PyVal.vInt n) =
              dateFallback toDt (PyVal.vInt n) := by
            unfold standardize
            rw [if_neg hf]
            dsimp only
            rw [if_neg hs]
          rw [hstd]
          exact dateFallback_idem toDt H1 H2 (PyVal.vInt n)
      | vFloat x =>
        by_cases hs : ((Dec.ofInt 30000).blt x && x.blt (Dec.ofInt 70000))
            = true
        · have hden := hvf x rfl
          have hlo : (30000 : Rat) < x.toRat := by
            have := (dec_blt_iff (Dec.ofInt 30000) x
              (by simp [Dec.ofInt]) hden).mp (Bool.and_eq_true_iff.mp hs).1
            simpa [Dec.ofInt, Dec.toRat] using this
          have hhi : x.toRat < (70000 : Rat) := by
            have := (dec_blt_iff x (Dec.ofInt 70000) hden
              (by simp [Dec.ofInt])).mp (Bool.and_eq_true_iff.mp hs).2
            simpa [Dec.ofInt, Dec.toRat] using this
          have hfl : (30000 : Int) ≤ x.floorD ∧ x.floorD ≤ 69999 := by
            rw [floorD_eq_floor]
            constructor
            · exact Int.le_floor.mpr (by exact_mod_cast le_of_lt hlo)
            · have : ⌊x.toRat⌋ < (70000 : Int) :=
                Int.floor_lt.mpr (by exact_mod_cast hhi)
              omega
          have hstd : standardize toDt (PyVal.vFloat x) =
              PyVal.vStr (formatDate (serialToDate x.floorD.toNat)) := by
            unfold standardize
            rw [if_neg hf]
            dsimp only
            rw [if_pos hs]
          rw [hstd]
          exact standardize_formatted toDt _
            (serialToDate_valid x.floorD.toNat (by omega) (by omega))
        · have hstd : standardize toDt (PyVal.vFloat x) =
              dateFallback toDt (PyVal.vFloat x) := by
            unfold standardize
            rw [if_neg hf]
            dsimp only
            rw [if_neg hs]
          rw [hstd]
          exact dateFallback_idem toDt H1 H2 (PyVal.vFloat x)
  · have hser : standardize toDt (PyVal.vInt 45000) =
        PyVal.vStr (formatDate (serialToDate ((45000 : Int)).toNat)) := by
      unfold standardize
      rw [if_neg (by decide)]
      dsimp only
      rw [if_pos (by constructor <;> decide)]
    rw [hser]
    decide
  · have hstd : standardize toDt (PyVal.vStr "3/15/2023") =
        dateFallback toDt (PyVal.vStr "3/15/2023") := by
      unfold standardize
      rw [if_neg (by decide)]
    rw [hstd]
    unfold dateFallback
    rw [show tryFormats fmts (pyStrip (PyVal.vStr "3/15/2023").pyStr) =
      some ⟨2023, 3, 15⟩ from by decide]
    dsimp only
    decide

/-- Witness for C5: idempotence at a month-name date string, plus the
two concrete normalizations, with the fallback parser instantiated to
always fail. -/
theorem date_normalization_idempotent_witness :
    standardize (fun _ => none) (PyVal.vInt 45000) =
      PyVal.vStr "03/15/2023" ∧
    standardize (fun _ => none) (PyVal.vStr "3/15/2023") =
      PyVal.vStr "03/15/2023" ∧
    standardize (fun _ => none)
        (standardize (fun _ => none) (PyVal.vStr "March 15, 2023")) =
      standardize (fun _ => none) (PyVal.vStr "March 15, 2023") := by
  have h := date_normalization_idempotent (fun _ => none)
    (fun v dt hh => Option.noConfusion hh) (fun v hh => rfl)
  exact ⟨h.2.1, h.2.2, h.1 (PyVal.vStr "March 15, 2023")
    (fun dt hh => PyVal.noConfusion hh)
    (fun x hh => PyVal.noConfusion hh)⟩

/-! ## `brief_extractor.py`: structural extraction of the four brief
sections (C8)

A brief is a rectangular grid of cells (`header=None` read).  The
extractors have two exception sources, captured with `Except`: `row[k]`
raises `KeyError` when column `k` does not exist, and in the dict loops
`for col in headers: if pd.notna(row[col])` indexes by header label, so
a duplicated header string makes `row[col]` a multi-element Series and
`pd.notna` raise `ValueError`. -/

/-- Python `row[k]`: `KeyError` when the column is absent. -/
def rowGet (row : List CellVal) (k : Nat) : Except Unit CellVal :=
  if h : k < row.length then .ok (row.get ⟨k, h⟩) else .error ()

/-- Pandas `row.isna().all()`. -/
def isNaAll (row : List CellVal) : Bool := row.all (fun c => c.isna)

/-- A brief cell as a `standardize_date_format` input. -/
def cellToPy : CellVal → PyVal
  | .na => PyVal.vNan
  | .s v => PyVal.vStr v
  | .int n => PyVal.vInt n
  | .float x => PyVal.vFloat x

/-- `str()` of a `standardize_date_format` result. -/
def pyValToStr : PyVal → String
  | .vStr s => s
  | w => w.pyStr

/-- The eight account fields scanned for, in source order. -/
def accountFields : List String :=
  ["Today's Date", "Account Name", "Campaign Name", "Business Consultant",
   "Campaign Specialist", "Business Account Manager", "Ad Ops Specialist",
   "Product Type"]

/-- Python dict assignment `d[k] = v` (insertion order preserved). -/
def setKV (d : List (String × String)) (k v : String) :
    List (String × String) :=
  if d.any (fun p => p.1 == k) then
    d.map (fun p => if p.1 == k then (k, v) else p)
  else d ++ [(k, v)]

/-- The guarded next-column / second-next-column value lookup of
`extract_account_data_from_excel`. -/
def accountCellValue (row : List CellVal) (colIdx : Nat) : Option String :=
  let second : Option String :=
    match row.get? (colIdx + 2) with
    | some c => if c.isna = false then some (pyStrip c.pyStr) else none
    | none => none
  match row.get? (colIdx + 1) with
  | some c => if c.isna = false then some (pyStrip c.pyStr) else second
  | none => second

/-- Embeds `extract_account_data_from_excel` (`brief_extractor.py`
748-782): scan the first 30 rows for the eight account fields, read the
value from the next or second-next column, and keep non-empty values.
All column accesses are length-guarded, so the extractor cannot raise. -/
def extract_account_data (g : List (List CellVal)) :
    List (String × String) :=
  (g.take 30).foldl (fun d row =>
    row.enum.foldl (fun d p =>
      match p.2 with
      | CellVal.s valStr =>
        match accountFields.find? (fun f =>
          strContains (pyLower valStr) (pyLower f)) with
        | some f =>
          match accountCellValue row p.1 with
          | some v => if v.data.isEmpty then d else setKV d f v
          | none => d
        | none => d
      | _ => d) d) []

/-- The nine campaign fields with their matching variations, in source
(dict-insertion) order. -/
def campaignTargetFields : List (String × List String) :=
  [("IO Campaign Start Date", ["io campaign start date"]),
   ("IO Campaign End Date",
    ["io campaign end date", "io campaign  end date"]),
   ("Apply Dairy-Milk Restrictions",
    ["apply dairy-milk restrictions", "apply dairy milk restrictions"]),
   ("LDA or Age Compliant", ["lda or age compliant"]),
   ("LDA or Age Compliant Notes", ["lda or age compliant notes"]),
   ("BV Budget", ["bv budget"]),
   ("Measurement Type", ["measurement type"]),
   ("Viewability Contracted", ["viewability contracted"]),
   ("Viewability Goal", ["viewability goal"])]

/-- Embeds `extract_campaign_data_from_excel` (`brief_extractor.py`
784-869): scan the first 30 rows, match each cell against the not-yet
found fields' variations, read the next-column value (dates through
`pd.to_datetime`, kept as the parameter `toDt`), and finally sort the
pairs into the canonical field order; `None` when nothing was found.
All accesses are guarded, so the extractor cannot raise. -/
def extract_campaign_data (toDt : PyVal → Option Date)
    (g : List (List CellVal)) : Option (List (String × String)) :=
  let pairs := (g.take 30).foldl (fun acc row =>
    if isNaAll row then acc
    else row.enum.foldl (fun acc p =>
      if p.2.isna then acc
      else
        let cellText := pyLower (pyStrip p.2.pyStr)
        match campaignTargetFields.find? (fun fv =>
          (!(acc.any (fun q => q.1 == fv.1))) &&
          fv.2.any (fun var => strContains cellText var)) with
        | some fv =>
          let value? : Option String :=
            match row.get? (p.1 + 1) with
            | some nc =>
              if nc.isna = false then
                some (if strContains (pyLower fv.1) "date" then
                  match toDt (cellToPy nc) with
                  | some dt => formatDate dt
                  | none => pyStrip nc.pyStr
                else pyStrip nc.pyStr)
              else none
            | none => none
          acc ++ [(fv.1, match value? with
            | some v => if v.data.isEmpty then "" else v
            | none => "")]
        | none => acc) acc) []
  if pairs.isEmpty then none
  else some (campaignTargetFields.filterMap (fun fv =>
    pairs.find? (fun p => p.1 == fv.1)))

/-- The placement header-row scan: first row from index 20 on with a
string cell containing "placement name" or "bvp". -/
def placementHeaderScan : List (List CellVal) → Nat → Option Nat
  | [], _ => none
  | row :: rest, idx =>
    if idx < 20 then placementHeaderScan rest (idx + 1)
    else if row.any (fun c =>
        match c with
        | CellVal.s v => strContains (pyLower v) "placement name" ||
            strContains (pyLower v) "bvp"
        | _ => false) then some idx
    else placementHeaderScan rest (idx + 1)

/-- The placement end-row scan: `row.isna().all() or (pd.notna(row[1])
and 'bv id' in str(row[1]).lower())` — the second disjunct indexes
column 1 and raises on a single-column grid. -/
def endScanAux : List (List CellVal) → Nat → Except Unit (Option Nat)
  | [], _ => .ok none
  | row :: rest, idx =>
    if isNaAll row then .ok (some idx)
    else
      match rowGet row 1 with
      | .error _ => .error ()
      | .ok c =>
        if (c.isna = false) && strContains (pyLower c.pyStr) "bv id" then
          .ok (some idx)
        else endScanAux rest (idx + 1)

/-- Header names: `str(h)` for present cells, `Column_{i}` otherwise. -/
def gridHeaders (hrow : List CellVal) : List String :=
  hrow.enum.map (fun p =>
    if p.2.isna = false then p.2.pyStr else "Column_" ++ natDecStr p.1)

/-- Whether a header list contains a duplicated label. -/
def hasDup : List String → Bool
  | [] => false
  | h :: t => t.contains h || hasDup t

/-- One data row as a dict, per `for col in headers: if
pd.notna(row[col])`: the lookup is by header label, so a duplicated
label yields a multi-element Series and `pd.notna` raises `ValueError`
(the loop always reaches the duplicated label); with unique labels the
lookup is the positional cell, kept stripped when present. -/
def rowToDict (headers : List String) (row : List CellVal) :
    Except Unit (Option (List (String × String))) :=
  if hasDup headers then .error ()
  else
    let pl := (headers.zip row).filterMap (fun q =>
      if q.2.isna = false then some (q.1, pyStrip q.2.pyStr) else none)
    .ok (if pl.isEmpty then none else some pl)

/-- The row loop of the placement/target extractors: keep the non-empty
row dicts, propagating the per-row `ValueError`. -/
def rowsToDicts (headers : List String) :
    List (List CellVal) → Except Unit (List (List (String × String)))
  | [] => .ok []
  | row :: rest =>
    match rowToDict headers row with
    | .error _ => .error ()
    | .ok none => rowsToDicts headers rest
    | .ok (some pl) =>
      match rowsToDicts headers rest with
      | .error _ => .error ()
      | .ok acc => .ok (pl :: acc)

/-- Embeds `extract_placement_data_from_excel` (`brief_extractor.py`
871-920): find the header row, find the end row (whose `row[1]` can
raise `KeyError` on narrow grids), take the block, use its first row as
headers, and run the dict loop (which can raise `ValueError` on
duplicated header labels). -/
def extract_placement_data (g : List (List CellVal)) :
    Except Unit (List (List (String × String))) :=
  match placementHeaderScan g 0 with
  | none => .ok []
  | some h =>
    match endScanAux (g.drop (h + 1)) (h + 1) with
    | .error _ => .error ()
    | .ok none => .ok []
    | .ok (some e) =>
      match (g.drop h).take (e - h) with
      | [] => .ok []
      | hrow :: drows => rowsToDicts (gridHeaders hrow) drows

/-- The target header-row scan, mirroring the short-circuit evaluation
of `pd.notna(row[1]) and 'bv id' in … and pd.notna(row[2]) and …`:
column 1 is indexed unconditionally on every row from index 20 on. -/
def targetHeaderScan : List (List CellVal) → Nat → Except Unit (Option Nat)
  | [], _ => .ok none
  | row :: rest, idx =>
    if idx < 20 then targetHeaderScan rest (idx + 1)
    else
      match rowGet row 1 with
      | .error _ => .error ()
      | .ok c1 =>
        if (c1.isna = false) && strContains (pyLower c1.pyStr) "bv id" then
          match rowGet row 2 with
          | .error _ => .error ()
          | .ok c2 =>
            if (c2.isna = false) && strContains (pyLower c2.pyStr) "bvp"
            then
              match rowGet row 3 with
              | .error _ => .error ()
              | .ok c3 =>
                if (c3.isna = false) &&
                    strContains (pyLower c3.pyStr) "bvt" then
                  .ok (some idx)
                else targetHeaderScan rest (idx + 1)
            else targetHeaderScan rest (idx + 1)
        else targetHeaderScan rest (idx + 1)

/-- Embeds `extract_target_data_from_excel` (`brief_extractor.py`
922-968): find the header row (whose `row[1..3]` can raise `KeyError`
on grids narrower than four columns), cut the block at the first
all-NaN row, use its first row as headers, and run the dict loop
(which can raise `ValueError` on duplicated header labels). -/
def extract_target_data (g : List (List CellVal)) :
    Except Unit (List (List (String × String))) :=
  match targetHeaderScan g 0 with
  | .error _ => .error ()
  | .ok none => .ok []
  | .ok (some h) =>
    match (g.drop h).takeWhile (fun r => isNaAll r = false) with
    | [] => .ok []
    | hrow :: drows => rowsToDicts (gridHeaders hrow) drows

/-- The driver's date standardization of the placement `Start Date` /
`End Date` columns. -/
def standardizePlacement (toDt : PyVal → Option Date)
    (pl : List (String × String)) : List (String × String) :=
  pl.map (fun p =>
    if p.1 == "Start Date" || p.1 == "End Date" then
      (p.1, pyValToStr (standardize toDt (PyVal.vStr p.2)))
    else p)

/-- The four extracted sections (`None` = missing). -/
structure StructuredData where
  account : Option (List (String × String))
  campaign : Option (List (String × String))
  placement : Option (List (List (String × String)))
  target : Option (List (List (String × String)))
deriving Repr, DecidableEq

/-- Embeds `extract_structured_brief_data` (`brief_extractor.py` 18-70):
run the four extractors in order inside one `try`; an exception returns
the sections collected so far; truthy results are stored, falsy ones
leave the section `None`. -/
def extract_structured_brief_data (toDt : PyVal → Option Date)
    (g : List (List CellVal)) : StructuredData :=
  let acc := extract_account_data g
  let s1 : StructuredData :=
    ⟨if acc.isEmpty then none else some acc, none, none, none⟩
  let s2 : StructuredData :=
    { s1 with campaign := extract_campaign_data toDt g }
  match extract_placement_data g with
  | .error _ => s2
  | .ok pls =>
    let pval : Option (List (List (String × String))) :=
      if pls.isEmpty then none
      else some (pls.map (standardizePlacement toDt))
    let s3 : StructuredData := { s2 with placement := pval }
    match extract_target_data g with
    | .error _ => s3
    | .ok tgs =>
      { s3 with target := if tgs.isEmpty then none else some tgs }

/-- The caller's acceptance check (`name_assign.py` 683): some stored
section exists.  Stored sections are non-empty by construction, so
`not df.empty` always holds for them. -/
def extractionAccepted (s : StructuredData) : Bool :=
  s.account.isSome || s.campaign.isSome || s.placement.isSome ||
    s.target.isSome

/-- A concrete 22-row, 4-column brief grid: an account row, filler, and
a target table whose header also triggers the placement scan. -/
def c8grid : List (List CellVal) :=
  [CellVal.s "Account Name", CellVal.s "Acme Foods", CellVal.na,
    CellVal.na] ::
  (List.replicate 19 [CellVal.na, CellVal.na, CellVal.na, CellVal.na] ++
   [[CellVal.na, CellVal.s "BV ID", CellVal.s "BVP", CellVal.s "BVT"],
    [CellVal.na, CellVal.s "1", CellVal.s "BVP_1", CellVal.s "BVT_1"]])

/-- Decidable equality of `Except` results, for concrete evaluation. -/
instance {ε α : Type} [DecidableEq ε] [DecidableEq α] :
    DecidableEq (Except ε α) := fun a b =>
  match a, b with
  | .error u, .error v =>
    if h : u = v then isTrue (by rw [h])
    else isFalse (fun he => h (by injection he))
  | .ok x, .ok y =>
    if h : x = y then isTrue (by rw [h])
    else isFalse (fun he => h (by injection he))
  | .error _, .ok _ => isFalse (fun he => Except.noConfusion he)
  | .ok _, .error _ => isFalse (fun he => Except.noConfusion he)

/-- A 24-row, 4-column brief grid whose placement block carries a
duplicated header label ("X" twice) followed by a data row, and whose
target table below it is well formed. -/
def c8dupGrid : List (List CellVal) :=
  List.replicate 20 [CellVal.na, CellVal.na, CellVal.na, CellVal.na] ++
  [[CellVal.s "Placement Name", CellVal.s "X", CellVal.s "X", CellVal.na],
   [CellVal.s "P1", CellVal.s "a", CellVal.s "b", CellVal.na],
   [CellVal.na, CellVal.s "BV ID", CellVal.s "BVP", CellVal.s "BVT"],
   [CellVal.na, CellVal.s "1", CellVal.s "p1", CellVal.s "t1"]]

/-- C8 counterexample: on `c8dupGrid` the placement dict loop raises
`ValueError` over the duplicated header label, the driver's `try`
aborts before the target extractor runs, and the caller reports a
terminal extraction failure — although an independent run of the target
extractor succeeds with a non-empty section.  The failure of one
section does abort extraction of another, and a document yielding a
section is reported as yielding none. -/
theorem brief_extraction_abort_counterexample :
    extract_structured_brief_data (fun _ => none) c8dupGrid =
      ⟨none, none, none, none⟩ ∧
    extractionAccepted (extract_structured_brief_data (fun _ => none)
      c8dupGrid) = false ∧
    extract_placement_data c8dupGrid = .error () ∧
    extract_target_data c8dupGrid =
      .ok [[("BV ID", "1"), ("BVP", "p1"), ("BVT", "t1")]] := by
  refine ⟨by decide, by decide, by decide, by decide⟩

/-- C8 (amended): the account and campaign extractors cannot raise, and
the account, campaign and placement sections of the driver's result
always equal independent runs of their extractors, a missing section
staying `None` without affecting the others; the target section equals
an independent run whenever the placement extractor does not raise, but
when it raises — a `KeyError` on a single-column grid or a `ValueError`
on a duplicated placement header label — the driver's single `try`
aborts and the target section is dropped even if independently
extractable; the caller reports a terminal extraction failure exactly
when all four stored sections are absent, which can happen for a
document that does yield a section. -/
theorem brief_extraction_flow (toDt : PyVal → Option Date)
    (g : List (List CellVal)) :
    (extract_structured_brief_data toDt g).account =
      (if (extract_account_data g).isEmpty then none
       else some (extract_account_data g)) ∧
    (extract_structured_brief_data toDt g).campaign =
      extract_campaign_data toDt g ∧
    (extract_structured_brief_data toDt g).placement =
      (match extract_placement_data g with
       | .ok pls => if pls.isEmpty then none
           else some (pls.map (standardizePlacement toDt))
       | .error _ => none) ∧
    (∀ pls, extract_placement_data g = .ok pls →
      (extract_structured_brief_data toDt g).target =
        (match extract_target_data g with
         | .ok tgs => if tgs.isEmpty then none else some tgs
         | .error _ => none)) ∧
    (extract_placement_data g = .error () →
      (extract_structured_brief_data toDt g).target = none) ∧
    (extractionAccepted (extract_structured_brief_data toDt g) = false ↔
      ((extract_structured_brief_data toDt g).account = none ∧
       (extract_structured_brief_data toDt g).campaign = none ∧
       (extract_structured_brief_data toDt g).placement = none ∧
       (extract_structured_brief_data toDt g).target = none)) := by
  have hopt : ∀ {α : Type} (o : Option α), o.isSome = false ↔ o = none := by
    intro α o
    cases o <;> simp
  have hacc : extractionAccepted (extract_structured_brief_data toDt g)
      = false ↔
      ((extract_structured_brief_data toDt g).account = none ∧
       (extract_structured_brief_data toDt g).campaign = none ∧
       (extract_structured_brief_data toDt g).placement = none ∧
       (extract_structured_brief_data toDt g).target = none) := by
    rw [extractionAccepted]
    simp only [Bool.or_eq_false_iff, hopt]
    tauto
  refine ⟨?_, ?_, ?_, ?_, ?_, hacc⟩
  · unfold extract_structured_brief_data
    cases hp : extract_placement_data g with
    | error u => rfl
    | ok pls =>
      cases ht : extract_target_data g with
      | error u => rfl
      | ok tgs => rfl
  · unfold extract_structured_brief_data
    cases hp : extract_placement_data g with
    | error u => rfl
    | ok pls =>
      cases ht : extract_target_data g with
      | error u => rfl
      | ok tgs => rfl
  · unfold extract_structured_brief_data
    cases hp : extract_placement_data g with
    | error u => rfl
    | ok pls =>
      cases ht : extract_target_data g with
      | error u => rfl
      | ok tgs => rfl
  · intro pls hp
    unfold extract_structured_brief_data
    rw [hp]
    cases ht : extract_target_data g with
    | error u => rfl
    | ok tgs => rfl
  · intro hp
    unfold extract_structured_brief_data
    rw [hp]

/-- Witness for C8: on the well-formed concrete grid the placement
extractor succeeds, so the target section equals its independent run,
and extraction is accepted. -/
theorem brief_extraction_flow_witness :
    (extract_structured_brief_data (fun _ => none) c8grid).target =
      (match extract_target_data c8grid with
       | .ok tgs => if tgs.isEmpty then none else some tgs
       | .error _ => none) ∧
    (extract_structured_brief_data (fun _ => none) c8grid).account =
      (if (extract_account_data c8grid).isEmpty then none
       else some (extract_account_data c8grid)) ∧
    extractionAccepted (extract_structured_brief_data (fun _ => none)
      c8grid) = true := by
  have h := brief_extraction_flow (fun _ => none) c8grid
  exact ⟨h.2.2.2.1 [] (by decide), h.1, by decide⟩

end BeeswaxQA
